import Mathlib

/-!
# RN2483 LoRaWAN driver (`rn2483/rn2483.go`, `rn2483/rn2483error.go`) and its
caller (`gpslogger/main.go`)

A shallow embedding of the serial driver of the RN2483 radio module, of the
loop of the logger that calls it, and of the properties their specification
states about them.

Modelling conventions

* A Go `string`, and the bytes travelling over the serial line, is a `List Char`
  (`Str`); every character stands for the byte with the same code (the protocol
  is plain ASCII).  A Go `[]byte` payload is a `List UInt8`.
* The serial port is the pair of the outcomes of the reads still to come and of
  every byte written so far.  One `Read` into the one-byte buffer either
  delivers one byte (`some b`) or returns zero bytes after the read timeout
  (`none`); when the scripted outcomes are used up every further read returns
  zero bytes.
* `int32` time budgets are integers; they only ever decrease from their start
  value to a value above `-10`, so no wrap-around can occur.
* A Go run-time panic is the `error` side of `Except GoPanic`.
* Debug printing (`debug`, `debugPrint`) changes no state and is left out.
* The number of reads of a loop is counted by a copy of the loop that returns
  one for every pass (`expectLoopReads`, `discardLineReads`, `lineLoopReads`).
* The retry loop of `initLora` has no end of its own; it is given the number
  of attempts to look at.
-/

set_option linter.unusedVariables false

namespace Rn2483

/-! ## Strings and the transport -/

/-- A Go string, or a run of bytes on the serial line. -/
abbrev Str := List Char

/-- The serial port: outcomes of the reads to come, and all bytes written. -/
structure Port where
  rx : List (Option Char)
  tx : Str
  deriving DecidableEq, Repr

/-- One call `rn.port.Read(buf)` with a buffer of one byte: the byte delivered,
if any, and the port afterwards. -/
def Port.Read (p : Port) : Option Char × Port :=
  match p.rx with
  | [] => (none, p)
  | e :: rest => (e, { p with rx := rest })

/-- One call `rn.port.Write(b)`. -/
def Port.Write (p : Port) (b : Str) : Port :=
  { p with tx := p.tx ++ b }

/-- The outcomes of reads that deliver the bytes of `s` one after the other
without an empty poll in between. -/
def deliver (s : Str) : List (Option Char) :=
  s.map some

/-! ## Constants of `rn2483.go` -/

def MAC_ABP_STR : Str := "abp".toList
def MAC_ADR_STR : Str := "adr".toList
def MAC_APP_SESSION_KEY_STR : Str := "appskey".toList
def MAC_DEVADDR_STR : Str := "devaddr".toList
def MAC_DR_STR : Str := "dr".toList
def MAC_JOIN_STR : Str := "mac join ".toList
def MAC_NETWORK_SESSION_KEY_STR : Str := "nwkskey".toList
def MAC_SET_STR : Str := "mac set ".toList
def SYS_RESET_STR : Str := "sys reset".toList

def RESULT_INVALID : Str := "invalid_param".toList
def XMIT_RES_NOT_JOINED : Str := "not_joined".toList
def XMIT_NO_FREE_CHANNEL : Str := "no_free_ch".toList
def XMIT_SILENT : Str := "silent".toList
def XMIT_FRAME_COUNTER_ERR_REJOIN_NEEDED : Str := "frame_counter_err_rejoin_needed".toList
def XMIT_BUSY : Str := "busy".toList
def XMIT_MAC_PAUSED : Str := "mac_paused".toList
def XMIT_INVALID_DATA_LENGTH : Str := "invalid_data_len".toList
def XMIT_MAC_TX_OK : Str := "mac_tx_ok".toList
def XMIT_MAC_ERR : Str := "mac_err".toList
def XMIT_MAC_RX : Str := "mac_rx".toList

/-- Result code: transmitted ok. -/
def XMIT_OK : Int := 0
/-- Result code: got data. -/
def XMIT_DATA : Int := 1
/-- Result code: transmit failed fatally for this packet. -/
def XMIT_FAIL : Int := 2
/-- Result code: transmit failed, retry sending. -/
def XMIT_RETRY : Int := 3
/-- Result code: transmit failed, reset mac. -/
def XMIT_RESET : Int := 4
/-- Result code: transmit failed, rejoin required. -/
def XMIT_REJOIN : Int := 5

/-- The map `xmit_response`; a Go map lookup of an absent key yields the zero
value of the element type, here `0`. -/
def xmit_response (str : Str) : Int :=
  if str = RESULT_INVALID then XMIT_FAIL
  else if str = XMIT_RES_NOT_JOINED then XMIT_REJOIN
  else if str = XMIT_NO_FREE_CHANNEL then XMIT_RETRY
  else if str = XMIT_SILENT then XMIT_RESET
  else if str = XMIT_FRAME_COUNTER_ERR_REJOIN_NEEDED then XMIT_REJOIN
  else if str = XMIT_BUSY then XMIT_FAIL
  else if str = XMIT_MAC_PAUSED then XMIT_RESET
  else if str = XMIT_INVALID_DATA_LENGTH then XMIT_FAIL
  else if str = XMIT_MAC_ERR then XMIT_RESET
  else if str = XMIT_MAC_TX_OK then XMIT_OK
  else if str = XMIT_MAC_RX then XMIT_OK
  else 0

/-! ## Sending and the matcher `expect` -/

/-- The method `Send`: write the command to the serial port. -/
def Send (rn : Port) (cmd : Str) : Port :=
  rn.Write cmd

/-- The first loop of `expect`: `for timeout > 0 && matched < l`.  Returns the
port, the remaining budget and the match count when the loop is left. -/
def expectLoop (str : Str) (rn : Port) (timeout : Int) (matched : Nat) : Port × Int × Nat :=
  if h : timeout > 0 ∧ matched < str.length then
    match hr : rn.Read with
    | (none, rn1) => expectLoop str rn1 (timeout - 5) matched
    | (some b, rn1) =>
      if str[matched] = b then expectLoop str rn1 timeout (matched + 1)
      else expectLoop str rn1 timeout 0
  else (rn, timeout, matched)
termination_by rn.rx.length + timeout.toNat
decreasing_by
  all_goals
    have h0 := h.1
    unfold Port.Read at hr
    split at hr
    · simp only [Prod.mk.injEq] at hr
      obtain ⟨h1, rfl⟩ := hr
      first | omega | cases h1
    · next e rest hrx =>
        simp only [Prod.mk.injEq] at hr
        obtain ⟨h1, rfl⟩ := hr
        simp only [hrx, List.length_cons]
        omega

/-- The second loop of `expect`: `for timeout > 0 && buf[0] != '\n'`, run when
the rest of the line is to be discarded.  `buf0` is the content of `buf[0]`. -/
def discardLine (rn : Port) (timeout : Int) (buf0 : Char) : Port × Int :=
  if h : timeout > 0 ∧ buf0 ≠ '\n' then
    match hr : rn.Read with
    | (none, rn1) => discardLine rn1 (timeout - 5) buf0
    | (some b, rn1) => discardLine rn1 timeout b
  else (rn, timeout)
termination_by rn.rx.length + timeout.toNat
decreasing_by
  all_goals
    have h0 := h.1
    unfold Port.Read at hr
    split at hr
    · simp only [Prod.mk.injEq] at hr
      obtain ⟨h1, rfl⟩ := hr
      first | omega | cases h1
    · next e rest hrx =>
        simp only [Prod.mk.injEq] at hr
        obtain ⟨h1, rfl⟩ := hr
        simp only [hrx, List.length_cons]
        omega

/-- The method `expect`: read until `str` is matched or the budget is used up;
optionally discard the rest of the line.  Returns whether `str` was matched. -/
def expect (rn : Port) (str : Str) (timeout : Int) (readline : Bool) : Bool × Port :=
  let r := expectLoop str rn timeout 0
  if r.2.2 ≥ str.length then
    if readline then (true, (discardLine r.1 r.2.1 (Char.ofNat 0)).1)
    else (true, r.1)
  else (false, r.1)

/-- The method `flushInput`: read until a read returns no byte. -/
def flushInput (rn : Port) : Port :=
  match hr : rn.Read with
  | (none, rn1) => rn1
  | (some _, rn1) => flushInput rn1
termination_by rn.rx.length
decreasing_by
  unfold Port.Read at hr
  split at hr
  · simp at hr
  · next e rest hrx =>
      simp only [Prod.mk.injEq] at hr
      obtain ⟨h1, rfl⟩ := hr
      simp [hrx]

/-- The method `Reset`.  The one-second sleep of the unchecked branch changes
no state of the model. -/
def Reset (rn : Port) (checkResult : Bool) : Bool × Port :=
  let rn := Send rn (SYS_RESET_STR ++ "\r\n".toList)
  if checkResult then expect rn "RN2483".toList 10000 true
  else (true, flushInput rn)

/-- The function `strconv.Itoa` (and the verb `%d`): the decimal text of an
integer. -/
def Itoa (n : Int) : Str :=
  if n < 0 then '-' :: Nat.toDigits 10 n.natAbs else Nat.toDigits 10 n.toNat

/-- The method `JoinAbp`: reset the module, set address, keys, adaptive rate and
(for `dataRate >= 0`) the data rate, then join; every step runs only while
`result` is still true. -/
def JoinAbp (rn : Port) (devAdr networkSessionkey appSessionkey : Str)
    (adaptiveRate : Bool) (dataRate : Int) : Bool × Port :=
  let s0 := Reset rn true
  let s1 :=
    if s0.1 then
      expect (Send s0.2 (MAC_SET_STR ++ MAC_DEVADDR_STR ++ " ".toList ++ devAdr ++ "\r\n".toList))
        "ok".toList 1000 true
    else s0
  let s2 :=
    if s1.1 then
      expect (Send s1.2
        (MAC_SET_STR ++ MAC_APP_SESSION_KEY_STR ++ " ".toList ++ appSessionkey ++ "\r\n".toList))
        "ok".toList 1000 true
    else s1
  let s3 :=
    if s2.1 then
      expect (Send s2.2
        (MAC_SET_STR ++ MAC_NETWORK_SESSION_KEY_STR ++ " ".toList ++ networkSessionkey
          ++ "\r\n".toList))
        "ok".toList 1000 true
    else s2
  let s4 :=
    if s3.1 then
      let a := Send s3.2 (MAC_SET_STR ++ MAC_ADR_STR ++ " ".toList)
      let b := if adaptiveRate then Send a "on".toList else Send a "off".toList
      let c := Send b "\r\n".toList
      expect c "ok".toList 1000 true
    else s3
  let s5 :=
    if s4.1 ∧ dataRate ≥ 0 then
      expect (Send s4.2 (MAC_SET_STR ++ MAC_DR_STR ++ " ".toList ++ Itoa dataRate ++ "\r\n".toList))
        "ok".toList 1000 true
    else s4
  if s5.1 then
    let j := expect (Send s5.2 (MAC_JOIN_STR ++ MAC_ABP_STR ++ "\r\n".toList)) "ok".toList 1000 true
    if j.1 then expect j.2 "accepted".toList 15000 true
    else j
  else s5

/-! ## Errors (`rn2483error.go`) -/

/-- The struct `Rn2483Error`. -/
structure Rn2483Error where
  msg : Str
  value : Int
  deriving DecidableEq, Repr

/-- The method `Error` of `Rn2483Error`. -/
def Rn2483Error.Error (e : Rn2483Error) : Str := e.msg

/-- The method `RetryAble`. -/
def Rn2483Error.RetryAble (e : Rn2483Error) : Bool := e.value == XMIT_RETRY

/-- The method `ResetRequired`. -/
def Rn2483Error.ResetRequired (e : Rn2483Error) : Bool := e.value == XMIT_RESET

/-- The method `RejoinRequired`. -/
def Rn2483Error.RejoinRequired (e : Rn2483Error) : Bool := e.value == XMIT_REJOIN

/-- The non-nil values of the Go interface `error` that the driver returns: an
`Rn2483Error`, an error made from a message (`"Port not found"`), and the two
errors of `encoding/hex`.  The nil error is `none : Option GoError`. -/
inductive GoError where
  | rn2483 (e : Rn2483Error)
  | message (msg : Str)
  | hexErrLength
  | hexInvalidByte (b : Char)
  deriving DecidableEq, Repr

/-- The function `NewError`. -/
def NewError (str : Str) (val : Int) : GoError :=
  GoError.rn2483 { msg := str, value := val }

/-- The type assertion `error.(rn2483.Error)` of the caller: it succeeds for an
`Rn2483Error` only. -/
def GoError.asRn2483 : GoError → Option Rn2483Error
  | GoError.rn2483 e => some e
  | _ => none

/-- A run-time panic of the Go program. -/
inductive GoPanic where
  | sliceBoundsOutOfRange
  | indexOutOfRange
  deriving DecidableEq, Repr

/-! ## Library functions used by `ReadResult` -/

/-- Walk of `strings.Index`: the index, counted from `i`, of the first place
where `sub` starts in `s`, or `-1`. -/
def IndexFrom (sub : Str) : Str → Int → Int
  | [], i => if sub = [] then i else -1
  | c :: r, i => if sub.isPrefixOf (c :: r) then i else IndexFrom sub r (i + 1)

/-- The function `strings.Index`. -/
def Index (s sub : Str) : Int := IndexFrom sub s 0

/-- The function `strings.Contains`. -/
def Contains (s sub : Str) : Bool := Index s sub ≥ 0

/-- Value of a run of decimal digits, most significant first, continuing from
`acc`; `none` when a character is not a digit. -/
def digitsValue : Str → Nat → Option Nat
  | [], acc => some acc
  | c :: r, acc =>
    if '0' ≤ c ∧ c ≤ '9' then digitsValue r (acc * 10 + (c.toNat - '0'.toNat)) else none

/-- The value `strconv.Atoi` returns (its error is not looked at by the
caller): the number for an optional sign followed by one or more decimal
digits, limited to the range of a 64-bit `int`; `0` for any other text. -/
def Atoi (s : Str) : Int :=
  let neg := s.head? = some '-'
  let body := if s.head? = some '-' ∨ s.head? = some '+' then s.tail else s
  if body = [] then 0
  else
    match digitsValue body 0 with
    | none => 0
    | some n =>
      if neg then (if n > 2 ^ 63 then -(2 ^ 63 : Int) else -(n : Int))
      else (if n > 2 ^ 63 - 1 then (2 ^ 63 - 1 : Int) else (n : Int))

/-- The table `reverseHexTable` of `encoding/hex`: the value of a hexadecimal
digit, `none` for any other byte. -/
def fromHexChar (c : Char) : Option Nat :=
  if '0' ≤ c ∧ c ≤ '9' then some (c.toNat - '0'.toNat)
  else if 'a' ≤ c ∧ c ≤ 'f' then some (c.toNat - 'a'.toNat + 10)
  else if 'A' ≤ c ∧ c ≤ 'F' then some (c.toNat - 'A'.toNat + 10)
  else none

/-- The function `hex.Decode(dst, src)`, started with `i` bytes decoded: pairs
of hexadecimal digits are decoded into `dst[i]`, which panics when `i` is not
below the length of `dst`; an invalid digit or an odd length is an error.
Returns the count of decoded bytes, the error and the content of `dst`. -/
def hexDecode (dst : List UInt8) (i : Nat) :
    Str → Except GoPanic (Nat × Option GoError × List UInt8)
  | [] => Except.ok (i, none, dst)
  | [p] =>
    if fromHexChar p = none then Except.ok (i, some (GoError.hexInvalidByte p), dst)
    else Except.ok (i, some GoError.hexErrLength, dst)
  | p :: q :: rest =>
    match fromHexChar p, fromHexChar q with
    | none, _ => Except.ok (i, some (GoError.hexInvalidByte p), dst)
    | some _, none => Except.ok (i, some (GoError.hexInvalidByte q), dst)
    | some a, some b =>
      if i < dst.length then hexDecode (dst.set i (UInt8.ofNat (a * 16 + b))) (i + 1) rest
      else Except.error GoPanic.indexOutOfRange

/-! ## Reading lines and results -/

/-- The line terminator `eol`. -/
def eol : Str := "\r\n".toList

/-- The accumulation loop `for timeout > 0 && matched < len(eol)` that
`ReadLine` and `ReadResult` both contain; the two copies differ only in the
amount `quantum` taken from the budget by an empty read (`10` and `5`).
Returns the port, the remaining budget, the accumulated input and the match
count when the loop is left. -/
def lineLoop (quantum : Int) (hq : 0 < quantum) (rn : Port) (timeout : Int) (input : Str)
    (matched : Nat) : Port × Int × Str × Nat :=
  if h : timeout > 0 ∧ matched < eol.length then
    match hr : rn.Read with
    | (none, rn1) => lineLoop quantum hq rn1 (timeout - quantum) input matched
    | (some b, rn1) =>
      if eol[matched] = b then lineLoop quantum hq rn1 timeout (input ++ [b]) (matched + 1)
      else lineLoop quantum hq rn1 timeout (input ++ [b]) 0
  else (rn, timeout, input, matched)
termination_by rn.rx.length + timeout.toNat
decreasing_by
  all_goals
    have h0 := h.1
    unfold Port.Read at hr
    split at hr
    · simp only [Prod.mk.injEq] at hr
      obtain ⟨h1, rfl⟩ := hr
      first | omega | cases h1
    · next e rest hrx =>
        simp only [Prod.mk.injEq] at hr
        obtain ⟨h1, rfl⟩ := hr
        simp only [hrx, List.length_cons]
        omega

/-- The method `ReadLine`: the line read and whether the budget ran out.  The
slice `input[:len(input)-2]` panics when fewer than two bytes were read. -/
def ReadLine (rn : Port) (timeout : Int) : Except GoPanic (Str × Bool) × Port :=
  let r := lineLoop 10 (by decide) rn timeout [] 0
  if r.2.2.1.length < 2 then (Except.error GoPanic.sliceBoundsOutOfRange, r.1)
  else (Except.ok (r.2.2.1.take (r.2.2.1.length - 2), decide (r.2.1 ≤ 0)), r.1)

/-- The three results `(int, []byte, error)` of `ReadResult` and `Transmit`. -/
structure XmitResult where
  port : Int
  data : List UInt8
  err : Option GoError
  deriving DecidableEq, Repr

/-- The conversion `[]byte(str)`. -/
def toBytes (s : Str) : List UInt8 := s.map (fun c => UInt8.ofNat c.toNat)

/-- The part of `ReadResult` after the timeout check: the classification of the
completed line `str`. -/
def classify (str : Str) : Except GoPanic XmitResult :=
  if Contains str XMIT_MAC_RX then
    let sep := Index str " ".toList
    if sep < 0 then
      Except.ok { port := 0, data := [], err := some (GoError.message "Port not found".toList) }
    else
      let port := Atoi (str.take sep.toNat)
      match hexDecode [] 0 (str.drop sep.toNat) with
      | Except.error e => Except.error e
      | Except.ok (len, error, bytes) =>
        if len ≤ 0 ∨ error ≠ none then Except.ok { port := 0, data := [], err := error }
        else Except.ok { port := port, data := bytes, err := none }
  else if Contains str XMIT_MAC_TX_OK then
    Except.ok { port := 0, data := [], err := none }
  else
    Except.ok { port := 0, data := [], err := some (NewError str (xmit_response str)) }

/-- The method `ReadResult`.  The slice `input[:len(input)-2]` is taken before
the timeout check and panics when fewer than two bytes were read.  The source
returns the two values `str, NewError(...)` on a timeout; they are the data and
the error of the result, the port is the zero value. -/
def ReadResult (rn : Port) (timeout : Int) : Except GoPanic XmitResult × Port :=
  let r := lineLoop 5 (by decide) rn timeout [] 0
  if r.2.2.1.length < 2 then (Except.error GoPanic.sliceBoundsOutOfRange, r.1)
  else
    let str := r.2.2.1.take (r.2.2.1.length - 2)
    if r.2.1 ≤ 0 then
      (Except.ok { port := 0, data := toBytes str,
                   err := some (NewError "Timeout waiting for end of line".toList XMIT_FAIL) }, r.1)
    else (classify str, r.1)

/-! ## Transmit -/

/-- The verb `%02X` applied to one byte: two upper-case hexadecimal digits. -/
def hexDigit (n : Nat) : Char :=
  if n < 10 then Char.ofNat ('0'.toNat + n) else Char.ofNat ('A'.toNat + (n - 10))

/-- The text `fmt.Sprintf("%02X", b)` for a byte `b`. -/
def hex02X (b : UInt8) : Str :=
  [hexDigit (b.toNat / 16), hexDigit (b.toNat % 16)]

/-- The loop `for i := 0; i < len(data); i++ { rn.Send(fmt.Sprintf("%02X", data[i])) }`. -/
def sendHex (rn : Port) : List UInt8 → Port
  | [] => rn
  | b :: rest => sendHex (Send rn (hex02X b)) rest

/-- The method `Transmit`. -/
def Transmit (rn : Port) (port : Int) (confirmed : Bool) (data : List UInt8) :
    Except GoPanic XmitResult × Port :=
  let a := Send rn "mac tx ".toList
  let b := if confirmed then Send a "cnf".toList else Send a "uncnf".toList
  let c := Send b (" ".toList ++ Itoa port ++ " ".toList)
  let d := sendHex c data
  let e := Send d "\r\n".toList
  let r := expect e "ok".toList 1000 true
  if r.1 then ReadResult r.2 600000
  else (Except.ok { port := 0, data := [],
                    err := some (NewError "Transmit failed".toList XMIT_FAIL) }, r.2)

/-! ## The outcome table and the caller's view of an error -/

/-- The outcome table in the words of the specification: the lines that stand
for a failed transmission and the result code documented for each of them. -/
def documentedOutcomes : List (Str × Int) :=
  [ ("invalid_param".toList, XMIT_FAIL),
    ("not_joined".toList, XMIT_REJOIN),
    ("no_free_ch".toList, XMIT_RETRY),
    ("silent".toList, XMIT_RESET),
    ("frame_counter_err_rejoin_needed".toList, XMIT_REJOIN),
    ("busy".toList, XMIT_FAIL),
    ("mac_paused".toList, XMIT_RESET),
    ("invalid_data_len".toList, XMIT_FAIL),
    ("mac_err".toList, XMIT_RESET) ]

/-- The keys of the map `xmit_response`. -/
def xmit_response_keys : List Str :=
  [ RESULT_INVALID, XMIT_RES_NOT_JOINED, XMIT_NO_FREE_CHANNEL, XMIT_SILENT,
    XMIT_FRAME_COUNTER_ERR_REJOIN_NEEDED, XMIT_BUSY, XMIT_MAC_PAUSED, XMIT_INVALID_DATA_LENGTH,
    XMIT_MAC_ERR, XMIT_MAC_TX_OK, XMIT_MAC_RX ]

/-- The test `rerr, ok := error.(rn2483.Error); ok && rerr.RetryAble()` of the
caller (`gpslogger/main.go`). -/
def reportsRetryAble (err : GoError) : Bool :=
  match err.asRn2483 with
  | some rerr => rerr.RetryAble
  | none => false

/-- The same test with the method `ResetRequired`. -/
def reportsResetRequired (err : GoError) : Bool :=
  match err.asRn2483 with
  | some rerr => rerr.ResetRequired
  | none => false

/-- The same test with the method `RejoinRequired`. -/
def reportsRejoinRequired (err : GoError) : Bool :=
  match err.asRn2483 with
  | some rerr => rerr.RejoinRequired
  | none => false

/-- The line that the accumulation loop of `ReadResult` completes on the port
within the budget (the accumulated input without its terminator), if it
completes one. -/
def completedLine (rn : Port) (timeout : Int) : Option Str :=
  let r := lineLoop 5 (by decide) rn timeout [] 0
  if r.2.1 > 0 then some (r.2.2.1.take (r.2.2.1.length - 2)) else none

/-! ## The payload on the wire, in the words of the specification -/

/-- The hexadecimal payload of a transmit command: the two-character encodings
of the payload bytes, in order, one after the other. -/
def hexPayload (data : List UInt8) : Str :=
  (data.map hex02X).flatten

/-! ## The join sequence as the specification lists it -/

/-- One step of the join sequence: the command written, the token waited for,
the time budget of the wait and the line with which the module acknowledges. -/
structure JoinStep where
  cmd : Str
  token : Str
  budget : Int
  ack : Str
  deriving DecidableEq, Repr

/-- The join sequence in the words of the specification: reset (acknowledged by
the boot banner), device address, application session key, network session key,
adaptive-rate flag, the data rate when it is not negative, the join command
(acknowledged by `ok`) and the `accepted` marker, which has no command of its
own. -/
def joinPlan (banner devAdr networkSessionkey appSessionkey : Str) (adaptiveRate : Bool)
    (dataRate : Int) : List JoinStep :=
  [ { cmd := "sys reset\r\n".toList, token := "RN2483".toList, budget := 10000, ack := banner },
    { cmd := "mac set devaddr ".toList ++ devAdr ++ "\r\n".toList,
      token := "ok".toList, budget := 1000, ack := "ok\r\n".toList },
    { cmd := "mac set appskey ".toList ++ appSessionkey ++ "\r\n".toList,
      token := "ok".toList, budget := 1000, ack := "ok\r\n".toList },
    { cmd := "mac set nwkskey ".toList ++ networkSessionkey ++ "\r\n".toList,
      token := "ok".toList, budget := 1000, ack := "ok\r\n".toList },
    { cmd := "mac set adr ".toList ++ (if adaptiveRate then "on".toList else "off".toList)
        ++ "\r\n".toList,
      token := "ok".toList, budget := 1000, ack := "ok\r\n".toList } ]
  ++ (if dataRate ≥ 0 then
        [ { cmd := "mac set dr ".toList ++ Itoa dataRate ++ "\r\n".toList,
            token := "ok".toList, budget := 1000, ack := "ok\r\n".toList } ]
      else [])
  ++ [ { cmd := "mac join abp\r\n".toList, token := "ok".toList, budget := 1000,
         ack := "ok\r\n".toList },
       { cmd := [], token := "accepted".toList, budget := 15000, ack := "accepted\r\n".toList } ]


/-! ## Line terminators in a text -/

/-- Whether a text holds the sequence carriage return, line feed. -/
def hasCRLF : Str → Bool
  | a :: b :: r => (a == '\r' && b == '\n') || hasCRLF (b :: r)
  | _ => false

/-! ## Repeated resets -/

/-- The results and the ports of `n` consecutive calls `Reset(false)`. -/
def resetCalls : Nat → Port → List (Bool × Port)
  | 0, _ => []
  | n + 1, rn => Reset rn false :: resetCalls n (Reset rn false).2

/-! ## The matcher in the words of the specification -/

/-- The bytes that a run of reads delivers. -/
def bytesOf (ev : List (Option Char)) : Str :=
  ev.filterMap id

/-- The number of reads of a run that return no byte. -/
def polls (ev : List (Option Char)) : Nat :=
  (ev.filter Option.isNone).length

/-- The count of matched bytes after one more byte: a byte that continues the
pattern adds one, any other byte sets the count to zero; a completed count
stays. -/
def matchStep (str : Str) (matched : Nat) (b : Char) : Nat :=
  if matched < str.length then (if str[matched]? = some b then matched + 1 else 0) else matched

/-- The count of matched bytes after the bytes `bs`, started from `matched`. -/
def matchCount (str : Str) (matched : Nat) (bs : Str) : Nat :=
  bs.foldl (matchStep str) matched

/-! ## Counting the reads -/

/-- The number of calls of `Read` made by the first loop of `expect`: the loop
itself, with one counted for every pass. -/
def expectLoopReads (str : Str) (rn : Port) (timeout : Int) (matched : Nat) : Nat :=
  if h : timeout > 0 ∧ matched < str.length then
    match hr : rn.Read with
    | (none, rn1) => expectLoopReads str rn1 (timeout - 5) matched + 1
    | (some b, rn1) =>
      if str[matched] = b then expectLoopReads str rn1 timeout (matched + 1) + 1
      else expectLoopReads str rn1 timeout 0 + 1
  else 0
termination_by rn.rx.length + timeout.toNat
decreasing_by
  all_goals
    have h0 := h.1
    unfold Port.Read at hr
    split at hr
    · simp only [Prod.mk.injEq] at hr
      obtain ⟨h1, rfl⟩ := hr
      first | omega | cases h1
    · next e rest hrx =>
        simp only [Prod.mk.injEq] at hr
        obtain ⟨h1, rfl⟩ := hr
        simp only [hrx, List.length_cons]
        omega

/-- The number of calls of `Read` made by the second loop of `expect`. -/
def discardLineReads (rn : Port) (timeout : Int) (buf0 : Char) : Nat :=
  if h : timeout > 0 ∧ buf0 ≠ '\n' then
    match hr : rn.Read with
    | (none, rn1) => discardLineReads rn1 (timeout - 5) buf0 + 1
    | (some b, rn1) => discardLineReads rn1 timeout b + 1
  else 0
termination_by rn.rx.length + timeout.toNat
decreasing_by
  all_goals
    have h0 := h.1
    unfold Port.Read at hr
    split at hr
    · simp only [Prod.mk.injEq] at hr
      obtain ⟨h1, rfl⟩ := hr
      first | omega | cases h1
    · next e rest hrx =>
        simp only [Prod.mk.injEq] at hr
        obtain ⟨h1, rfl⟩ := hr
        simp only [hrx, List.length_cons]
        omega

/-- The number of calls of `Read` made by one call of `expect`. -/
def expectReads (rn : Port) (str : Str) (timeout : Int) (readline : Bool) : Nat :=
  let r := expectLoop str rn timeout 0
  expectLoopReads str rn timeout 0
    + (if r.2.2 ≥ str.length ∧ readline = true then discardLineReads r.1 r.2.1 (Char.ofNat 0)
       else 0)

/-- The number of calls of `Read` made by the accumulation loop of `ReadLine`
and `ReadResult`. -/
def lineLoopReads (quantum : Int) (hq : 0 < quantum) (rn : Port) (timeout : Int)
    (matched : Nat) : Nat :=
  if h : timeout > 0 ∧ matched < eol.length then
    match hr : rn.Read with
    | (none, rn1) => lineLoopReads quantum hq rn1 (timeout - quantum) matched + 1
    | (some b, rn1) =>
      if eol[matched] = b then lineLoopReads quantum hq rn1 timeout (matched + 1) + 1
      else lineLoopReads quantum hq rn1 timeout 0 + 1
  else 0
termination_by rn.rx.length + timeout.toNat
decreasing_by
  all_goals
    have h0 := h.1
    unfold Port.Read at hr
    split at hr
    · simp only [Prod.mk.injEq] at hr
      obtain ⟨h1, rfl⟩ := hr
      first | omega | cases h1
    · next e rest hrx =>
        simp only [Prod.mk.injEq] at hr
        obtain ⟨h1, rfl⟩ := hr
        simp only [hrx, List.length_cons]
        omega

/-- The number of calls of `Read` made by one call of `ReadLine`. -/
def ReadLineReads (rn : Port) (timeout : Int) : Nat :=
  lineLoopReads 10 (by decide) rn timeout 0

/-- The number of calls of `Read` made by one call of `ReadResult`. -/
def ReadResultReads (rn : Port) (timeout : Int) : Nat :=
  lineLoopReads 5 (by decide) rn timeout 0

/-! ## The logger (`gpslogger/main.go`) -/

/-- The session key that `initLora` passes twice to `JoinAbp`. -/
def loggerKey : Str := "2B7E151628AED2A6ABF7158809CF4F3C".toList

/-- The function `initLora`: call `JoinAbp` until it succeeds.  The loop has no
end of its own; `attempts` is the number of calls looked at, and the result
tells whether one of them succeeded.  Opening the port again and the sleep of
five seconds between two calls change no state of the model. -/
def initLora (nodeId : Str) : Nat → Port → Bool × Port
  | 0, rn => (false, rn)
  | attempts + 1, rn =>
    if (JoinAbp rn nodeId loggerKey loggerKey false 5).1 then
      JoinAbp rn nodeId loggerKey loggerKey false 5
    else initLora nodeId attempts (JoinAbp rn nodeId loggerKey loggerKey false 5).2

/-- One pass of the loop of `main` from the call of `Transmit` on: transmit
the data on port 1, unconfirmed, and call `initLora` when the error is an
`rn2483.Error` for which `RetryAble` holds.  The result tells whether the pass
came to its end within the attempts given to `initLora`; a panic ends the
program. -/
def mainCycle (attempts : Nat) (nodeId : Str) (rn : Port) (xmitdata : List UInt8) :
    Except GoPanic (Bool × Port) :=
  match (Transmit rn 1 false xmitdata).1 with
  | Except.error p => Except.error p
  | Except.ok res =>
    match res.err with
    | none => Except.ok (true, (Transmit rn 1 false xmitdata).2)
    | some error =>
      if reportsRetryAble error then
        Except.ok (initLora nodeId attempts (Transmit rn 1 false xmitdata).2)
      else Except.ok (true, (Transmit rn 1 false xmitdata).2)

/-! ## Unfolding the loops on a scripted port -/

theorem expectLoop_done (str : Str) (rn : Port) (timeout : Int) (matched : Nat)
    (h : ¬ (timeout > 0 ∧ matched < str.length)) :
    expectLoop str rn timeout matched = (rn, timeout, matched) := by
  rw [expectLoop]
  simp only [h, dite_false]

theorem expectLoop_nil (str : Str) (tx : Str) (timeout : Int) (matched : Nat)
    (ht : timeout > 0) (hm : matched < str.length) :
    expectLoop str ⟨[], tx⟩ timeout matched = expectLoop str ⟨[], tx⟩ (timeout - 5) matched := by
  rw [expectLoop]
  simp [Port.Read, ht, hm]

theorem expectLoop_none (str : Str) (rx : List (Option Char)) (tx : Str) (timeout : Int)
    (matched : Nat) (ht : timeout > 0) (hm : matched < str.length) :
    expectLoop str ⟨none :: rx, tx⟩ timeout matched
      = expectLoop str ⟨rx, tx⟩ (timeout - 5) matched := by
  rw [expectLoop]
  simp [Port.Read, ht, hm]

theorem expectLoop_some (str : Str) (b : Char) (rx : List (Option Char)) (tx : Str)
    (timeout : Int) (matched : Nat) (ht : timeout > 0) (hm : matched < str.length) :
    expectLoop str ⟨some b :: rx, tx⟩ timeout matched
      = if str[matched] = b then expectLoop str ⟨rx, tx⟩ timeout (matched + 1)
        else expectLoop str ⟨rx, tx⟩ timeout 0 := by
  rw [expectLoop]
  simp [Port.Read, ht, hm]

/-- On a port that delivers nothing more, the first loop of `expect` uses up
the budget and leaves the match count as it was. -/
theorem expectLoop_silent (str : Str) (tx : Str) (matched : Nat) (hm : matched < str.length) :
    ∀ (n : Nat) (timeout : Int), timeout.toNat ≤ n →
      ∃ t1 : Int, t1 ≤ 0 ∧ expectLoop str ⟨[], tx⟩ timeout matched = (⟨[], tx⟩, t1, matched) := by
  intro n
  induction n with
  | zero =>
    intro timeout h
    refine ⟨timeout, by omega, ?_⟩
    apply expectLoop_done
    omega
  | succ k ih =>
    intro timeout h
    by_cases ht : timeout > 0
    · obtain ⟨t1, h1, h2⟩ := ih (timeout - 5) (by omega)
      exact ⟨t1, h1, by rw [expectLoop_nil str tx timeout matched ht hm, h2]⟩
    · refine ⟨timeout, by omega, ?_⟩
      apply expectLoop_done
      omega

/-- Bytes that differ from the first byte of the pattern are skipped while
nothing is matched. -/
theorem expectLoop_skip (str : Str) (hs : 0 < str.length) (tx : Str) (timeout : Int)
    (ht : timeout > 0) (rx : List (Option Char)) :
    ∀ pre : Str, str[0] ∉ pre →
      expectLoop str ⟨deliver pre ++ rx, tx⟩ timeout 0 = expectLoop str ⟨rx, tx⟩ timeout 0 := by
  intro pre
  induction pre with
  | nil => intro _; rfl
  | cons c r ih =>
    intro h
    simp only [List.mem_cons, not_or] at h
    have h1 : deliver (c :: r) ++ rx = some c :: (deliver r ++ rx) := rfl
    rw [h1, expectLoop_some str c _ tx timeout 0 ht hs, if_neg h.1, ih h.2]

/-- The pattern itself, delivered from the current match count on, completes
the match. -/
theorem expectLoop_match (str : Str) (tx : Str) (timeout : Int) (ht : timeout > 0)
    (rx : List (Option Char)) :
    ∀ (k matched : Nat), matched + k = str.length →
      expectLoop str ⟨deliver (str.drop matched) ++ rx, tx⟩ timeout matched
        = (⟨rx, tx⟩, timeout, str.length) := by
  intro k
  induction k with
  | zero =>
    intro matched h
    have h1 : str.drop matched = [] := by
      apply List.drop_eq_nil_of_le
      omega
    rw [h1, expectLoop_done]
    · simp only [deliver, List.map_nil, List.nil_append]
      rw [← h]
      rfl
    · omega
  | succ k ih =>
    intro matched h
    have hm : matched < str.length := by omega
    have h1 : str.drop matched = str[matched] :: str.drop (matched + 1) :=
      List.drop_eq_getElem_cons hm
    have h2 : deliver (str.drop matched) ++ rx
        = some str[matched] :: (deliver (str.drop (matched + 1)) ++ rx) := by
      rw [h1]
      rfl
    rw [h2, expectLoop_some str _ _ tx timeout matched ht hm, if_pos rfl]
    exact ih (matched + 1) (by omega)

theorem discardLine_done (rn : Port) (timeout : Int) (buf0 : Char)
    (h : ¬ (timeout > 0 ∧ buf0 ≠ '\n')) :
    discardLine rn timeout buf0 = (rn, timeout) := by
  rw [discardLine]
  simp only [h, dite_false]

theorem discardLine_nil (tx : Str) (timeout : Int) (buf0 : Char)
    (ht : timeout > 0) (hb : buf0 ≠ '\n') :
    discardLine ⟨[], tx⟩ timeout buf0 = discardLine ⟨[], tx⟩ (timeout - 5) buf0 := by
  rw [discardLine]
  simp [Port.Read, ht, hb]

theorem discardLine_none (rx : List (Option Char)) (tx : Str) (timeout : Int) (buf0 : Char)
    (ht : timeout > 0) (hb : buf0 ≠ '\n') :
    discardLine ⟨none :: rx, tx⟩ timeout buf0 = discardLine ⟨rx, tx⟩ (timeout - 5) buf0 := by
  rw [discardLine]
  simp [Port.Read, ht, hb]

theorem discardLine_some (b : Char) (rx : List (Option Char)) (tx : Str) (timeout : Int)
    (buf0 : Char) (ht : timeout > 0) (hb : buf0 ≠ '\n') :
    discardLine ⟨some b :: rx, tx⟩ timeout buf0 = discardLine ⟨rx, tx⟩ timeout b := by
  rw [discardLine]
  simp [Port.Read, ht, hb]

/-- The rest of a line, up to and including its line feed, is read off. -/
theorem discardLine_line (tx : Str) (timeout : Int) (ht : timeout > 0)
    (rx : List (Option Char)) :
    ∀ (post : Str) (buf0 : Char), '\n' ∉ post → buf0 ≠ '\n' →
      discardLine ⟨deliver (post ++ ['\n']) ++ rx, tx⟩ timeout buf0 = (⟨rx, tx⟩, timeout) := by
  intro post
  induction post with
  | nil =>
    intro buf0 _ hb
    have h1 : deliver ([] ++ ['\n']) ++ rx = some '\n' :: rx := rfl
    rw [h1, discardLine_some _ _ _ _ _ ht hb, discardLine_done]
    simp
  | cons c r ih =>
    intro buf0 h hb
    simp only [List.mem_cons, not_or] at h
    have h1 : deliver (c :: r ++ ['\n']) ++ rx = some c :: (deliver (r ++ ['\n']) ++ rx) := rfl
    rw [h1, discardLine_some _ _ _ _ _ ht hb]
    exact ih c h.2 (fun hc => h.1 hc.symm)

/-- The matcher on a line that holds the pattern: bytes before the pattern that
differ from its first byte, the pattern, and the rest of the line. -/
theorem expect_line (str : Str) (hs : 0 < str.length) (pre post : Str) (rx : List (Option Char))
    (tx : Str) (timeout : Int) (ht : timeout > 0) (hpre : str[0] ∉ pre) (hpost : '\n' ∉ post) :
    expect ⟨deliver (pre ++ str ++ post ++ ['\n']) ++ rx, tx⟩ str timeout true
      = (true, ⟨rx, tx⟩) := by
  have h1 : deliver (pre ++ str ++ post ++ ['\n']) ++ rx
      = deliver pre ++ (deliver (str.drop 0) ++ (deliver (post ++ ['\n']) ++ rx)) := by
    simp [deliver]
  have h2 := expectLoop_skip str hs tx timeout ht
    (deliver (str.drop 0) ++ (deliver (post ++ ['\n']) ++ rx)) pre hpre
  have h3 := expectLoop_match str tx timeout ht (deliver (post ++ ['\n']) ++ rx)
    str.length 0 (by omega)
  have h4 := discardLine_line tx timeout ht rx post (Char.ofNat 0) hpost (by decide)
  unfold expect
  rw [h1, h2, h3]
  simp [h4]

/-- On a port that delivers nothing more, `expect` of a non-empty pattern reports
a timeout and leaves the port as it is. -/
theorem expect_silent (str : Str) (hs : 0 < str.length) (tx : Str) (timeout : Int)
    (readline : Bool) :
    expect ⟨[], tx⟩ str timeout readline = (false, ⟨[], tx⟩) := by
  obtain ⟨t1, _, h2⟩ := expectLoop_silent str tx 0 hs timeout.toNat timeout (le_refl _)
  unfold expect
  rw [h2]
  have h3 : ¬ (0 ≥ str.length) := by omega
  simp only [h3, if_false]

/-- The first loop of `expect` never looks at the bytes written and leaves
them as they are. -/
theorem expectLoop_tx_free (str : Str) :
    ∀ (n : Nat) (rx : List (Option Char)) (timeout : Int) (matched : Nat),
      rx.length + timeout.toNat ≤ n →
      ∃ (rx1 : List (Option Char)) (t1 : Int) (m1 : Nat),
        ∀ tx : Str, expectLoop str ⟨rx, tx⟩ timeout matched = (⟨rx1, tx⟩, t1, m1) := by
  intro n
  induction n with
  | zero =>
    intro rx timeout matched h
    refine ⟨rx, timeout, matched, fun tx => expectLoop_done _ _ _ _ (by omega)⟩
  | succ k ih =>
    intro rx timeout matched h
    by_cases hc : timeout > 0 ∧ matched < str.length
    · cases rx with
      | nil =>
        obtain ⟨rx1, t1, m1, h1⟩ := ih [] (timeout - 5) matched (by simp at h ⊢; omega)
        exact ⟨rx1, t1, m1, fun tx => by rw [expectLoop_nil _ _ _ _ hc.1 hc.2, h1]⟩
      | cons e r =>
        cases e with
        | none =>
          obtain ⟨rx1, t1, m1, h1⟩ := ih r (timeout - 5) matched (by simp at h ⊢; omega)
          exact ⟨rx1, t1, m1, fun tx => by rw [expectLoop_none _ _ _ _ _ hc.1 hc.2, h1]⟩
        | some b =>
          by_cases hb : str[matched] = b
          · obtain ⟨rx1, t1, m1, h1⟩ := ih r timeout (matched + 1) (by simp at h ⊢; omega)
            exact ⟨rx1, t1, m1, fun tx => by
              rw [expectLoop_some _ _ _ _ _ _ hc.1 hc.2, if_pos hb, h1]⟩
          · obtain ⟨rx1, t1, m1, h1⟩ := ih r timeout 0 (by simp at h ⊢; omega)
            exact ⟨rx1, t1, m1, fun tx => by
              rw [expectLoop_some _ _ _ _ _ _ hc.1 hc.2, if_neg hb, h1]⟩
    · exact ⟨rx, timeout, matched, fun tx => expectLoop_done _ _ _ _ hc⟩

/-- The second loop of `expect` never looks at the bytes written and leaves
them as they are. -/
theorem discardLine_tx_free :
    ∀ (n : Nat) (rx : List (Option Char)) (timeout : Int) (buf0 : Char),
      rx.length + timeout.toNat ≤ n →
      ∃ (rx1 : List (Option Char)) (t1 : Int),
        ∀ tx : Str, discardLine ⟨rx, tx⟩ timeout buf0 = (⟨rx1, tx⟩, t1) := by
  intro n
  induction n with
  | zero =>
    intro rx timeout buf0 h
    refine ⟨rx, timeout, fun tx => discardLine_done _ _ _ (by omega)⟩
  | succ k ih =>
    intro rx timeout buf0 h
    by_cases hc : timeout > 0 ∧ buf0 ≠ '\n'
    · cases rx with
      | nil =>
        obtain ⟨rx1, t1, h1⟩ := ih [] (timeout - 5) buf0 (by simp at h ⊢; omega)
        exact ⟨rx1, t1, fun tx => by rw [discardLine_nil _ _ _ hc.1 hc.2, h1]⟩
      | cons e r =>
        cases e with
        | none =>
          obtain ⟨rx1, t1, h1⟩ := ih r (timeout - 5) buf0 (by simp at h ⊢; omega)
          exact ⟨rx1, t1, fun tx => by rw [discardLine_none _ _ _ _ hc.1 hc.2, h1]⟩
        | some b =>
          obtain ⟨rx1, t1, h1⟩ := ih r timeout b (by simp at h ⊢; omega)
          exact ⟨rx1, t1, fun tx => by rw [discardLine_some _ _ _ _ _ hc.1 hc.2, h1]⟩
    · exact ⟨rx, timeout, fun tx => discardLine_done _ _ _ hc⟩

/-- The matcher `expect` never looks at the bytes written and leaves them as
they are: its result and the reads it uses up depend on the reads alone. -/
theorem expect_tx_free (rx : List (Option Char)) (str : Str) (timeout : Int) (readline : Bool) :
    ∃ (b : Bool) (rx1 : List (Option Char)),
      ∀ tx : Str, expect ⟨rx, tx⟩ str timeout readline = (b, ⟨rx1, tx⟩) := by
  obtain ⟨rx1, t1, m1, h1⟩ := expectLoop_tx_free str _ rx timeout 0 (le_refl _)
  obtain ⟨rx2, t2, h2⟩ := discardLine_tx_free _ rx1 t1 (Char.ofNat 0) (le_refl _)
  by_cases hm : m1 ≥ str.length
  · cases readline with
    | true => exact ⟨true, rx2, fun tx => by simp [expect, h1, h2, hm]⟩
    | false => exact ⟨true, rx1, fun tx => by simp [expect, h1, hm]⟩
  · exact ⟨false, rx1, fun tx => by simp [expect, h1, hm]⟩

/-! ## The join sequence -/

theorem Send_mk (rx : List (Option Char)) (tx cmd : Str) :
    Send ⟨rx, tx⟩ cmd = ⟨rx, tx ++ cmd⟩ := rfl

theorem expect_ok (rx : List (Option Char)) (tx : Str) :
    expect ⟨deliver "ok\r\n".toList ++ rx, tx⟩ "ok".toList 1000 true = (true, ⟨rx, tx⟩) :=
  expect_line "ok".toList (by decide) [] ['\r'] rx tx 1000 (by decide) (by simp) (by decide)

theorem expect_accepted (rx : List (Option Char)) (tx : Str) :
    expect ⟨deliver "accepted\r\n".toList ++ rx, tx⟩ "accepted".toList 15000 true
      = (true, ⟨rx, tx⟩) :=
  expect_line "accepted".toList (by decide) [] ['\r'] rx tx 15000 (by decide) (by simp)
    (by decide)

theorem expect_banner (pre post : Str) (hpre : 'R' ∉ pre) (hpost : '\n' ∉ post)
    (rx : List (Option Char)) (tx : Str) :
    expect ⟨deliver (pre ++ "RN2483".toList ++ post ++ "\n".toList) ++ rx, tx⟩
        "RN2483".toList 10000 true
      = (true, ⟨rx, tx⟩) :=
  expect_line "RN2483".toList (by decide) pre post rx tx 10000 (by decide) (by simpa using hpre)
    hpost

/-- C1, as amended: on a script that answers the reset with a banner line in
which no byte `R` comes before the token `RN2483`, every set command with
`ok\r\n` and the join command with `ok\r\n` and `accepted\r\n`, `JoinAbp`
returns true, reads exactly the script, and writes exactly the reset command,
the four (or, for a data rate that is not negative, five) set commands and the
join command, in this order. -/
theorem JoinAbp_scripted (devAdr networkSessionkey appSessionkey : Str) (adaptiveRate : Bool)
    (dataRate : Int) (pre post : Str) (rx : List (Option Char)) (tx : Str)
    (hpre : 'R' ∉ pre) (hpost : '\n' ∉ post) :
    JoinAbp
      ⟨deliver (pre ++ "RN2483".toList ++ post ++ "\n".toList)
        ++ deliver "ok\r\n".toList ++ deliver "ok\r\n".toList ++ deliver "ok\r\n".toList
        ++ deliver "ok\r\n".toList
        ++ (if dataRate ≥ 0 then deliver "ok\r\n".toList else [])
        ++ deliver "ok\r\n".toList ++ deliver "accepted\r\n".toList ++ rx, tx⟩
      devAdr networkSessionkey appSessionkey adaptiveRate dataRate
    = (true,
       ⟨rx,
        tx ++ "sys reset\r\n".toList
          ++ ("mac set devaddr ".toList ++ devAdr ++ "\r\n".toList)
          ++ ("mac set appskey ".toList ++ appSessionkey ++ "\r\n".toList)
          ++ ("mac set nwkskey ".toList ++ networkSessionkey ++ "\r\n".toList)
          ++ ("mac set adr ".toList ++ (if adaptiveRate then "on".toList else "off".toList)
                ++ "\r\n".toList)
          ++ (if dataRate ≥ 0 then "mac set dr ".toList ++ Itoa dataRate ++ "\r\n".toList else [])
          ++ "mac join abp\r\n".toList⟩) := by
  have hb := expect_banner pre post hpre hpost
  simp only [List.append_assoc] at hb ⊢
  by_cases hd : dataRate ≥ 0 <;> cases adaptiveRate <;>
    simp only [JoinAbp, Reset, Send_mk, hb, expect_ok, expect_accepted, hd, if_true, if_false,
      and_true, and_false, true_and, List.nil_append, Bool.false_eq_true, List.append_assoc] <;>
    simp [MAC_SET_STR, MAC_DEVADDR_STR,
      MAC_APP_SESSION_KEY_STR, MAC_NETWORK_SESSION_KEY_STR, MAC_ADR_STR, MAC_DR_STR,
      MAC_JOIN_STR, MAC_ABP_STR, SYS_RESET_STR]

/-- Witness of C1: the banner of the module and the credentials of the logger. -/
theorem JoinAbp_scripted_witness :
    JoinAbp
      ⟨deliver ([] ++ "RN2483".toList ++ " 1.0.1 Dec 15 2015 09:38:09\r".toList ++ "\n".toList)
        ++ deliver "ok\r\n".toList ++ deliver "ok\r\n".toList ++ deliver "ok\r\n".toList
        ++ deliver "ok\r\n".toList
        ++ (if (5 : Int) ≥ 0 then deliver "ok\r\n".toList else [])
        ++ deliver "ok\r\n".toList ++ deliver "accepted\r\n".toList ++ [], []⟩
      "020129FF".toList "2B7E151628AED2A6ABF7158809CF4F3C".toList
      "2B7E151628AED2A6ABF7158809CF4F3C".toList false 5
    = (true,
       ⟨[],
        [] ++ "sys reset\r\n".toList
          ++ ("mac set devaddr ".toList ++ "020129FF".toList ++ "\r\n".toList)
          ++ ("mac set appskey ".toList ++ "2B7E151628AED2A6ABF7158809CF4F3C".toList
                ++ "\r\n".toList)
          ++ ("mac set nwkskey ".toList ++ "2B7E151628AED2A6ABF7158809CF4F3C".toList
                ++ "\r\n".toList)
          ++ ("mac set adr ".toList ++ (if false then "on".toList else "off".toList)
                ++ "\r\n".toList)
          ++ (if (5 : Int) ≥ 0 then "mac set dr ".toList ++ Itoa 5 ++ "\r\n".toList else [])
          ++ "mac join abp\r\n".toList⟩) :=
  JoinAbp_scripted _ _ _ false 5 [] " 1.0.1 Dec 15 2015 09:38:09\r".toList [] [] (by decide)
    (by decide)

/-- A pattern whose first byte never arrives is not matched: the bytes are
read off and the budget runs out. -/
theorem expectLoop_absent (str : Str) (hs : 0 < str.length) (s : Str) (habs : str[0] ∉ s)
    (tx : Str) (timeout : Int) (ht : timeout > 0) :
    ∃ t1 : Int, t1 ≤ 0 ∧ expectLoop str ⟨deliver s, tx⟩ timeout 0 = (⟨[], tx⟩, t1, 0) := by
  obtain ⟨t1, h1, h2⟩ := expectLoop_silent str tx 0 hs timeout.toNat timeout (le_refl _)
  refine ⟨t1, h1, ?_⟩
  have h3 := expectLoop_skip str hs tx timeout ht [] s habs
  rw [List.append_nil] at h3
  rw [h3, h2]

/-- C1, counterexample: the banner line `RRN2483` contains the token `RN2483`,
every later answer is as the claim asks, and still `JoinAbp` returns false,
having written the reset command only. -/
theorem JoinAbp_banner_counterexample :
    Contains "RRN2483\r\n".toList "RN2483".toList = true ∧
    JoinAbp
      ⟨deliver "RRN2483\r\n".toList
        ++ deliver "ok\r\n".toList ++ deliver "ok\r\n".toList ++ deliver "ok\r\n".toList
        ++ deliver "ok\r\n".toList ++ deliver "ok\r\n".toList
        ++ deliver "ok\r\n".toList ++ deliver "accepted\r\n".toList, []⟩
      "020129FF".toList "2B7E151628AED2A6ABF7158809CF4F3C".toList
      "2B7E151628AED2A6ABF7158809CF4F3C".toList false 5
    = (false, ⟨[], "sys reset\r\n".toList⟩) := by
  refine ⟨by decide, ?_⟩
  obtain ⟨t1, h1, h2⟩ := expectLoop_absent "RN2483".toList (by decide)
    "N2483\r\nok\r\nok\r\nok\r\nok\r\nok\r\nok\r\naccepted\r\n".toList (by decide)
    "sys reset\r\n".toList 10000 (by decide)
  have h3 : expect
      ⟨some 'R' :: some 'R' ::
        deliver "N2483\r\nok\r\nok\r\nok\r\nok\r\nok\r\nok\r\naccepted\r\n".toList,
        "sys reset\r\n".toList⟩ "RN2483".toList 10000 true
      = (false, ⟨[], "sys reset\r\n".toList⟩) := by
    unfold expect
    rw [expectLoop_some _ _ _ _ _ _ (by decide) (by decide),
      if_pos (show "RN2483".toList[0] = 'R' from by decide),
      expectLoop_some _ _ _ _ _ _ (by decide) (by decide),
      if_neg (show ¬ "RN2483".toList[0 + 1] = 'R' from by decide), h2]
    simp
  have h4 : deliver "RRN2483\r\n".toList
        ++ deliver "ok\r\n".toList ++ deliver "ok\r\n".toList ++ deliver "ok\r\n".toList
        ++ deliver "ok\r\n".toList ++ deliver "ok\r\n".toList
        ++ deliver "ok\r\n".toList ++ deliver "accepted\r\n".toList
      = some 'R' :: some 'R' ::
        deliver "N2483\r\nok\r\nok\r\nok\r\nok\r\nok\r\nok\r\naccepted\r\n".toList := by
    decide
  have h5 : ([] : Str) ++ (SYS_RESET_STR ++ "\r\n".toList) = "sys reset\r\n".toList := by decide
  simp only [JoinAbp, Reset, Send_mk, h4, h5, h3]
  simp

theorem deliver_append (a b : Str) : deliver (a ++ b) = deliver a ++ deliver b := by
  simp [deliver]

theorem deliver_nil : deliver [] = [] := rfl

/-- C2: for every step of the join sequence, when the acknowledgments of the
earlier steps arrive and the matcher of that step times out on what follows
(the acknowledgment does not arrive within the budget of the step), `JoinAbp`
returns false and has written exactly the commands up to and including that
step, so that no later command is sent. -/
theorem JoinAbp_short_circuit (devAdr networkSessionkey appSessionkey : Str)
    (adaptiveRate : Bool) (dataRate : Int) (pre post : Str) (hpre : 'R' ∉ pre)
    (hpost : '\n' ∉ post) (tx : Str) (k : Nat) (step : JoinStep) (stall : List (Option Char))
    (hk : (joinPlan (pre ++ "RN2483".toList ++ post ++ "\n".toList) devAdr networkSessionkey
            appSessionkey adaptiveRate dataRate)[k]? = some step)
    (hfail : (expect ⟨stall, []⟩ step.token step.budget true).1 = false) :
    (JoinAbp
        ⟨deliver (((joinPlan (pre ++ "RN2483".toList ++ post ++ "\n".toList) devAdr
            networkSessionkey appSessionkey adaptiveRate dataRate).take k).map
            JoinStep.ack).flatten ++ stall, tx⟩
        devAdr networkSessionkey appSessionkey adaptiveRate dataRate).1 = false
    ∧ (JoinAbp
        ⟨deliver (((joinPlan (pre ++ "RN2483".toList ++ post ++ "\n".toList) devAdr
            networkSessionkey appSessionkey adaptiveRate dataRate).take k).map
            JoinStep.ack).flatten ++ stall, tx⟩
        devAdr networkSessionkey appSessionkey adaptiveRate dataRate).2.tx
      = tx ++ (((joinPlan (pre ++ "RN2483".toList ++ post ++ "\n".toList) devAdr
            networkSessionkey appSessionkey adaptiveRate dataRate).take (k + 1)).map
            JoinStep.cmd).flatten := by
  obtain ⟨b, rxf, hx⟩ := expect_tx_free stall step.token step.budget true
  have hb0 : b = false := by
    have h0 := hx []
    rw [h0] at hfail
    exact hfail
  subst hb0
  have hb := expect_banner pre post hpre hpost
  simp only [deliver_append, List.append_assoc] at hb
  by_cases hd : dataRate ≥ 0
  · simp only [joinPlan, hd, if_true, List.cons_append, List.nil_append] at hk ⊢
    rcases k with _ | _ | _ | _ | _ | _ | _ | _ | k
    all_goals
      simp only [List.getElem?_cons_zero, List.getElem?_cons_succ, Option.some.injEq,
        List.getElem?_nil] at hk
    all_goals try (simp at hk; done)
    all_goals
        (subst hk
         cases adaptiveRate <;>
         simp only [List.take_succ_cons, List.take_zero, List.map_cons, List.map_nil,
            List.flatten_cons, List.flatten_nil, deliver_append, deliver_nil, List.append_nil,
            List.nil_append, List.append_assoc, JoinAbp, Reset, Send_mk, hb, expect_ok,
            expect_accepted, hx, hd, if_true, if_false, and_true, and_false, true_and,
            Bool.false_eq_true, zero_add] <;>
         simp [MAC_SET_STR, MAC_DEVADDR_STR, MAC_APP_SESSION_KEY_STR,
            MAC_NETWORK_SESSION_KEY_STR, MAC_ADR_STR, MAC_DR_STR, MAC_JOIN_STR, MAC_ABP_STR,
            SYS_RESET_STR])
  · simp only [joinPlan, hd, if_false, List.cons_append, List.nil_append, List.append_nil]
      at hk ⊢
    rcases k with _ | _ | _ | _ | _ | _ | _ | k
    all_goals
      simp only [List.getElem?_cons_zero, List.getElem?_cons_succ, Option.some.injEq,
        List.getElem?_nil] at hk
    all_goals try (simp at hk; done)
    all_goals
        (subst hk
         cases adaptiveRate <;>
         simp only [List.take_succ_cons, List.take_zero, List.map_cons, List.map_nil,
            List.flatten_cons, List.flatten_nil, deliver_append, deliver_nil, List.append_nil,
            List.nil_append, List.append_assoc, JoinAbp, Reset, Send_mk, hb, expect_ok,
            expect_accepted, hx, hd, if_true, if_false, and_true, and_false, true_and,
            Bool.false_eq_true, zero_add] <;>
         simp [MAC_SET_STR, MAC_DEVADDR_STR, MAC_APP_SESSION_KEY_STR,
            MAC_NETWORK_SESSION_KEY_STR, MAC_ADR_STR, MAC_DR_STR, MAC_JOIN_STR, MAC_ABP_STR,
            SYS_RESET_STR])

/-- Witness of C2: the acknowledgment of the second set command (`appskey`)
never arrives; the network session key, the adaptive-rate flag, the data rate
and the join command are never sent. -/
theorem JoinAbp_short_circuit_witness :
    (JoinAbp ⟨deliver "RN2483 1.0.1 Dec 15 2015 09:38:09\r\nok\r\n".toList, []⟩
        "020129FF".toList "2B7E151628AED2A6ABF7158809CF4F3C".toList
        "2B7E151628AED2A6ABF7158809CF4F3C".toList false 5).1 = false
    ∧ (JoinAbp ⟨deliver "RN2483 1.0.1 Dec 15 2015 09:38:09\r\nok\r\n".toList, []⟩
        "020129FF".toList "2B7E151628AED2A6ABF7158809CF4F3C".toList
        "2B7E151628AED2A6ABF7158809CF4F3C".toList false 5).2.tx
      = ("sys reset\r\n" ++ "mac set devaddr 020129FF\r\n"
          ++ "mac set appskey 2B7E151628AED2A6ABF7158809CF4F3C\r\n").toList :=
  JoinAbp_short_circuit "020129FF".toList "2B7E151628AED2A6ABF7158809CF4F3C".toList
    "2B7E151628AED2A6ABF7158809CF4F3C".toList false 5 [] " 1.0.1 Dec 15 2015 09:38:09\r".toList
    (by decide) (by decide) [] 2
    { cmd := "mac set appskey ".toList ++ "2B7E151628AED2A6ABF7158809CF4F3C".toList
        ++ "\r\n".toList,
      token := "ok".toList, budget := 1000, ack := "ok\r\n".toList }
    [] rfl (congrArg Prod.fst (expect_silent "ok".toList (by decide) [] 1000 true))

/-! ## The accumulation loop of `ReadLine` and `ReadResult` -/

theorem lineLoop_done (quantum : Int) (hq : 0 < quantum) (rn : Port) (timeout : Int)
    (input : Str) (matched : Nat) (h : ¬ (timeout > 0 ∧ matched < eol.length)) :
    lineLoop quantum hq rn timeout input matched = (rn, timeout, input, matched) := by
  rw [lineLoop]
  simp only [h, dite_false]

theorem lineLoop_nil (quantum : Int) (hq : 0 < quantum) (tx : Str) (timeout : Int)
    (input : Str) (matched : Nat) (ht : timeout > 0) (hm : matched < eol.length) :
    lineLoop quantum hq ⟨[], tx⟩ timeout input matched
      = lineLoop quantum hq ⟨[], tx⟩ (timeout - quantum) input matched := by
  rw [lineLoop]
  simp [Port.Read, ht, hm]

theorem lineLoop_none (quantum : Int) (hq : 0 < quantum) (rx : List (Option Char)) (tx : Str)
    (timeout : Int) (input : Str) (matched : Nat) (ht : timeout > 0)
    (hm : matched < eol.length) :
    lineLoop quantum hq ⟨none :: rx, tx⟩ timeout input matched
      = lineLoop quantum hq ⟨rx, tx⟩ (timeout - quantum) input matched := by
  rw [lineLoop]
  simp [Port.Read, ht, hm]

theorem lineLoop_some (quantum : Int) (hq : 0 < quantum) (b : Char) (rx : List (Option Char))
    (tx : Str) (timeout : Int) (input : Str) (matched : Nat) (ht : timeout > 0)
    (hm : matched < eol.length) :
    lineLoop quantum hq ⟨some b :: rx, tx⟩ timeout input matched
      = if eol[matched] = b then lineLoop quantum hq ⟨rx, tx⟩ timeout (input ++ [b]) (matched + 1)
        else lineLoop quantum hq ⟨rx, tx⟩ timeout (input ++ [b]) 0 := by
  rw [lineLoop]
  simp [Port.Read, ht, hm]

/-- On a port that delivers nothing more, the accumulation loop uses up the
budget and leaves the input and the match count as they were. -/
theorem lineLoop_silent (quantum : Int) (hq : 0 < quantum) (tx : Str) (input : Str)
    (matched : Nat) (hm : matched < eol.length) :
    ∀ (n : Nat) (timeout : Int), timeout.toNat ≤ n →
      ∃ t1 : Int, t1 ≤ 0 ∧
        lineLoop quantum hq ⟨[], tx⟩ timeout input matched = (⟨[], tx⟩, t1, input, matched) := by
  intro n
  induction n with
  | zero =>
    intro timeout h
    refine ⟨timeout, by omega, ?_⟩
    apply lineLoop_done
    omega
  | succ k ih =>
    intro timeout h
    by_cases ht : timeout > 0
    · obtain ⟨t1, h1, h2⟩ := ih (timeout - quantum) (by omega)
      exact ⟨t1, h1, by rw [lineLoop_nil quantum hq tx timeout input matched ht hm, h2]⟩
    · refine ⟨timeout, by omega, ?_⟩
      apply lineLoop_done
      omega

/-- A line without a carriage return, followed by carriage return and line
feed, is accumulated whole and ends the loop with the budget untouched. -/
theorem lineLoop_line (quantum : Int) (hq : 0 < quantum) (tx : Str) (timeout : Int)
    (ht : timeout > 0) (rx : List (Option Char)) :
    ∀ (line input : Str), '\r' ∉ line →
      lineLoop quantum hq ⟨deliver (line ++ "\r\n".toList) ++ rx, tx⟩ timeout input 0
        = (⟨rx, tx⟩, timeout, input ++ line ++ "\r\n".toList, 2) := by
  intro line
  induction line with
  | nil =>
    intro input _
    have h1 : deliver ([] ++ "\r\n".toList) ++ rx = some '\r' :: some '\n' :: rx := rfl
    rw [h1, lineLoop_some _ _ _ _ _ _ _ _ ht (by decide),
      if_pos (show eol[0] = '\r' from by decide),
      lineLoop_some _ _ _ _ _ _ _ _ ht (by decide),
      if_pos (show eol[0 + 1] = '\n' from by decide),
      lineLoop_done _ _ _ _ _ _ (fun hc => absurd hc.2 (by decide))]
    simp
  | cons c r ih =>
    intro input h
    simp only [List.mem_cons, not_or] at h
    have h1 : deliver (c :: r ++ "\r\n".toList) ++ rx
        = some c :: (deliver (r ++ "\r\n".toList) ++ rx) := rfl
    rw [h1, lineLoop_some _ _ _ _ _ _ _ _ ht (by decide),
      if_neg (show ¬ eol[0] = c from fun hc => h.1 hc), ih (input ++ [c]) h.2]
    simp

/-- The accumulation loop never looks at the bytes written and leaves them as
they are. -/
theorem lineLoop_tx_free (quantum : Int) (hq : 0 < quantum) :
    ∀ (n : Nat) (rx : List (Option Char)) (timeout : Int) (input : Str) (matched : Nat),
      rx.length + timeout.toNat ≤ n →
      ∃ (rx1 : List (Option Char)) (t1 : Int) (i1 : Str) (m1 : Nat),
        ∀ tx : Str,
          lineLoop quantum hq ⟨rx, tx⟩ timeout input matched = (⟨rx1, tx⟩, t1, i1, m1) := by
  intro n
  induction n with
  | zero =>
    intro rx timeout input matched h
    refine ⟨rx, timeout, input, matched, fun tx => lineLoop_done _ _ _ _ _ _ (by omega)⟩
  | succ k ih =>
    intro rx timeout input matched h
    by_cases hc : timeout > 0 ∧ matched < eol.length
    · cases rx with
      | nil =>
        obtain ⟨rx1, t1, i1, m1, h1⟩ :=
          ih [] (timeout - quantum) input matched (by simp at h ⊢; omega)
        exact ⟨rx1, t1, i1, m1, fun tx => by rw [lineLoop_nil _ _ _ _ _ _ hc.1 hc.2, h1]⟩
      | cons e r =>
        cases e with
        | none =>
          obtain ⟨rx1, t1, i1, m1, h1⟩ :=
            ih r (timeout - quantum) input matched (by simp at h ⊢; omega)
          exact ⟨rx1, t1, i1, m1, fun tx => by rw [lineLoop_none _ _ _ _ _ _ _ hc.1 hc.2, h1]⟩
        | some b =>
          by_cases hb : eol[matched] = b
          · obtain ⟨rx1, t1, i1, m1, h1⟩ :=
              ih r timeout (input ++ [b]) (matched + 1) (by simp at h ⊢; omega)
            exact ⟨rx1, t1, i1, m1, fun tx => by
              rw [lineLoop_some _ _ _ _ _ _ _ _ hc.1 hc.2, if_pos hb, h1]⟩
          · obtain ⟨rx1, t1, i1, m1, h1⟩ :=
              ih r timeout (input ++ [b]) 0 (by simp at h ⊢; omega)
            exact ⟨rx1, t1, i1, m1, fun tx => by
              rw [lineLoop_some _ _ _ _ _ _ _ _ hc.1 hc.2, if_neg hb, h1]⟩
    · exact ⟨rx, timeout, input, matched, fun tx => lineLoop_done _ _ _ _ _ _ hc⟩

/-- The method `ReadResult` writes nothing. -/
theorem ReadResult_tx (rx : List (Option Char)) (tx : Str) (timeout : Int) :
    (ReadResult ⟨rx, tx⟩ timeout).2.tx = tx := by
  obtain ⟨rx1, t1, i1, m1, h1⟩ := lineLoop_tx_free 5 (by decide) _ rx timeout [] 0 (le_refl _)
  unfold ReadResult
  simp only [h1]
  split
  · rfl
  · split <;> rfl

/-! ## Transmit -/

theorem sendHex_mk (rx : List (Option Char)) :
    ∀ (data : List UInt8) (tx : Str), sendHex ⟨rx, tx⟩ data = ⟨rx, tx ++ hexPayload data⟩ := by
  intro data
  induction data with
  | nil => intro tx; simp [sendHex, hexPayload]
  | cons b r ih =>
    intro tx
    simp only [sendHex, Send_mk, ih, hexPayload, List.map_cons, List.flatten_cons,
      List.append_assoc]

theorem hexDigit_mem (n : Nat) (h : n < 16) : hexDigit n ∈ "0123456789ABCDEF".toList := by
  interval_cases n <;> decide

theorem hexDigit_table (n : Nat) (h : n < 16) :
    hexDigit n = "0123456789ABCDEF".toList.getD n '0' := by
  interval_cases n <;> decide

theorem hex02X_table (b : UInt8) :
    hex02X b = ["0123456789ABCDEF".toList.getD (b.toNat / 16) '0',
                "0123456789ABCDEF".toList.getD (b.toNat % 16) '0'] := by
  have hb : b.toNat < 256 := b.val.isLt
  unfold hex02X
  rw [hexDigit_table _ (by omega), hexDigit_table _ (by omega)]

theorem hexPayload_length (data : List UInt8) : (hexPayload data).length = 2 * data.length := by
  induction data with
  | nil => rfl
  | cons b r ih =>
    simp only [hexPayload, List.map_cons, List.flatten_cons, List.length_append,
      List.length_cons] at ih ⊢
    rw [ih]
    simp [hex02X]
    omega

theorem hexPayload_mem (data : List UInt8) :
    ∀ c ∈ hexPayload data, c ∈ "0123456789ABCDEF".toList := by
  intro c hc
  simp only [hexPayload, List.mem_flatten, List.mem_map] at hc
  obtain ⟨l, ⟨b, _, rfl⟩, hcl⟩ := hc
  have hb : b.toNat < 256 := b.val.isLt
  simp only [hex02X, List.mem_cons, List.mem_singleton, List.not_mem_nil, or_false] at hcl
  rcases hcl with rfl | rfl
  · exact hexDigit_mem _ (by omega)
  · exact hexDigit_mem _ (by omega)

/-- C3: whatever the module answers, `Transmit` writes exactly `mac tx `, then
`cnf` or `uncnf`, a space, the decimal port, a space, the hexadecimal payload
and the line terminator; the hexadecimal payload holds, for every payload byte
in order, the digit of its upper and the digit of its lower four bits, so two
characters for every byte, all of them among `0`-`9` and `A`-`F`. -/
theorem Transmit_writes (rn : Port) (port : Int) (confirmed : Bool) (data : List UInt8) :
    (Transmit rn port confirmed data).2.tx
        = rn.tx ++ ("mac tx ".toList ++ (if confirmed then "cnf".toList else "uncnf".toList)
            ++ " ".toList ++ Itoa port ++ " ".toList ++ hexPayload data ++ "\r\n".toList)
    ∧ hexPayload data
        = (data.map (fun b => ["0123456789ABCDEF".toList.getD (b.toNat / 16) '0',
                               "0123456789ABCDEF".toList.getD (b.toNat % 16) '0'])).flatten
    ∧ (hexPayload data).length = 2 * data.length
    ∧ ∀ c ∈ hexPayload data, c ∈ "0123456789ABCDEF".toList := by
  refine ⟨?_, ?_, hexPayload_length data, hexPayload_mem data⟩
  rotate_left
  · unfold hexPayload
    congr 1
    exact List.map_congr_left (fun b _ => hex02X_table b)
  obtain ⟨rx, tx⟩ := rn
  cases confirmed
  all_goals
    simp only [Transmit, Send_mk, sendHex_mk, Bool.false_eq_true, if_false, if_true]
    obtain ⟨b, rx1, hx⟩ := expect_tx_free rx "ok".toList 1000 true
    rw [hx]
    cases b
    · simp
    · simp only [if_true, ReadResult_tx]
      simp

/-! ## Results of a transmission -/

/-- A complete line without a carriage return is handed to the classifier. -/
theorem ReadResult_line (line : Str) (hcr : '\r' ∉ line) (rx : List (Option Char)) (tx : Str)
    (timeout : Int) (ht : timeout > 0) :
    ReadResult ⟨deliver (line ++ "\r\n".toList) ++ rx, tx⟩ timeout = (classify line, ⟨rx, tx⟩) := by
  have h1 := lineLoop_line 5 (by decide) tx timeout ht rx line [] hcr
  have h2 : ¬ ((line ++ "\r\n".toList).length < 2) := by simp
  have h3 : (line ++ "\r\n".toList).take ((line ++ "\r\n".toList).length - 2) = line := by simp
  have h4 : ¬ (timeout ≤ 0) := by omega
  unfold ReadResult
  simp only [h1, List.nil_append, h2, h3, h4, if_false]

/-- After the `ok` of the module, `Transmit` classifies the result line. -/
theorem Transmit_line (port : Int) (confirmed : Bool) (data : List UInt8) (line : Str)
    (hcr : '\r' ∉ line) (rx : List (Option Char)) (tx : Str) :
    (Transmit ⟨deliver ("ok\r\n".toList ++ line ++ "\r\n".toList) ++ rx, tx⟩ port confirmed
        data).1 = classify line := by
  have h1 : deliver ("ok\r\n".toList ++ line ++ "\r\n".toList) ++ rx
      = deliver "ok\r\n".toList ++ (deliver (line ++ "\r\n".toList) ++ rx) := by
    simp only [deliver_append, List.append_assoc]
  cases confirmed <;>
    simp only [Transmit, Send_mk, sendHex_mk, Bool.false_eq_true, if_false, if_true, h1,
      expect_ok, ReadResult_line line hcr _ _ 600000 (by decide)]

/-- What the classifier does with a line that does not hold the downlink
marker. -/
theorem classify_no_rx (line : Str) (hrx : Contains line XMIT_MAC_RX = false) :
    classify line
      = if Contains line XMIT_MAC_TX_OK then Except.ok { port := 0, data := [], err := none }
        else Except.ok { port := 0, data := [],
                         err := some (NewError line (xmit_response line)) } := by
  unfold classify
  simp only [hrx, Bool.false_eq_true, if_false]

/-- C4, as amended: on the input `ok\r\n`, a result line without carriage
return that does not hold the downlink marker `mac_rx`, and `\r\n`, `Transmit`
returns normally with port 0 and an empty payload, and its error is nil if and
only if the line contains the marker `mac_tx_ok`; for the line `mac_tx_ok` the
result is port 0, an empty payload and a nil error. -/
theorem Transmit_result_line (port : Int) (confirmed : Bool) (data : List UInt8) (line : Str)
    (rx : List (Option Char)) (tx : Str) (hcr : '\r' ∉ line)
    (hrx : Contains line XMIT_MAC_RX = false) :
    ∃ r : XmitResult,
      (Transmit ⟨deliver ("ok\r\n".toList ++ line ++ "\r\n".toList) ++ rx, tx⟩ port confirmed
        data).1 = Except.ok r
      ∧ r.port = 0 ∧ r.data = []
      ∧ (r.err = none ↔ Contains line XMIT_MAC_TX_OK = true)
      ∧ (line = XMIT_MAC_TX_OK → r = { port := 0, data := [], err := none }) := by
  rw [Transmit_line port confirmed data line hcr rx tx, classify_no_rx line hrx]
  by_cases hc : Contains line XMIT_MAC_TX_OK = true
  · refine ⟨{ port := 0, data := [], err := none }, ?_, rfl, rfl, ?_, fun _ => rfl⟩
    · simp only [hc, if_true]
    · simp only [hc]
  · refine ⟨{ port := 0, data := [], err := some (NewError line (xmit_response line)) },
      ?_, rfl, rfl, ?_, ?_⟩
    · simp [hc]
    · simp [hc]
    · intro h
      rw [h] at hc
      exact absurd (by decide) hc

/-- Witness of C4: the module acknowledges the transmission with `mac_tx_ok`. -/
theorem Transmit_result_line_witness :
    ∃ r : XmitResult,
      (Transmit ⟨deliver ("ok\r\n".toList ++ "mac_tx_ok".toList ++ "\r\n".toList) ++ [], []⟩ 1
        false [72, 105]).1 = Except.ok r
      ∧ r.port = 0 ∧ r.data = []
      ∧ (r.err = none ↔ Contains "mac_tx_ok".toList XMIT_MAC_TX_OK = true)
      ∧ ("mac_tx_ok".toList = XMIT_MAC_TX_OK → r = { port := 0, data := [], err := none }) :=
  Transmit_result_line 1 false [72, 105] "mac_tx_ok".toList [] [] (by decide) (by decide)

/-- C4, counterexample: the result line `xmac_tx_ok` is not the marker
`mac_tx_ok` and does not hold the downlink marker, and `Transmit` returns a nil
error. -/
theorem Transmit_nil_error_counterexample :
    (Transmit ⟨deliver ("ok\r\n".toList ++ "xmac_tx_ok".toList ++ "\r\n".toList) ++ [], []⟩ 1
        false [72, 105]).1 = Except.ok { port := 0, data := [], err := none }
    ∧ "xmac_tx_ok".toList ≠ XMIT_MAC_TX_OK
    ∧ Contains "xmac_tx_ok".toList XMIT_MAC_RX = false := by
  refine ⟨?_, by decide, by decide⟩
  rw [Transmit_line 1 false [72, 105] "xmac_tx_ok".toList (by decide) [] []]
  rfl

/-- C5: when the `ok` of the module is not matched within the budget of 1000,
`Transmit` returns port 0, an empty payload and an `Rn2483Error` that carries
the code `XMIT_FAIL`, for which `RetryAble`, `ResetRequired` and
`RejoinRequired` are all false; it reads nothing after the failed wait, so
`ReadResult` is not entered. -/
theorem Transmit_not_acknowledged (rn : Port) (port : Int) (confirmed : Bool)
    (data : List UInt8) (h : (expect rn "ok".toList 1000 true).1 = false) :
    ∃ e : Rn2483Error,
      (Transmit rn port confirmed data).1
        = Except.ok { port := 0, data := [], err := some (GoError.rn2483 e) }
      ∧ e.value = XMIT_FAIL
      ∧ e.RetryAble = false ∧ e.ResetRequired = false ∧ e.RejoinRequired = false
      ∧ (Transmit rn port confirmed data).2.rx = (expect rn "ok".toList 1000 true).2.rx := by
  obtain ⟨rx, tx⟩ := rn
  obtain ⟨b, rx1, hx⟩ := expect_tx_free rx "ok".toList 1000 true
  rw [hx] at h
  simp only at h
  subst h
  refine ⟨{ msg := "Transmit failed".toList, value := XMIT_FAIL }, ?_, rfl, by decide, by decide,
    by decide, ?_⟩
  · cases confirmed <;>
      simp only [Transmit, Send_mk, sendHex_mk, hx, Bool.false_eq_true, if_false, if_true] <;> rfl
  · cases confirmed <;>
      simp only [Transmit, Send_mk, sendHex_mk, hx, Bool.false_eq_true, if_false, if_true]

/-- Witness of C5: the module stays silent after the transmit command. -/
theorem Transmit_not_acknowledged_witness :
    ∃ e : Rn2483Error,
      (Transmit ⟨[], []⟩ 1 false [72, 105]).1
        = Except.ok { port := 0, data := [], err := some (GoError.rn2483 e) }
      ∧ e.value = XMIT_FAIL
      ∧ e.RetryAble = false ∧ e.ResetRequired = false ∧ e.RejoinRequired = false
      ∧ (Transmit ⟨[], []⟩ 1 false [72, 105]).2.rx
          = (expect ⟨[], []⟩ "ok".toList 1000 true).2.rx :=
  Transmit_not_acknowledged ⟨[], []⟩ 1 false [72, 105]
    (congrArg Prod.fst (expect_silent "ok".toList (by decide) [] 1000 true))

/-- C6: every line of the outcome table, completed by the line terminator, is
returned by `ReadResult` as an `Rn2483Error` whose text is the line and whose
code is the documented one; `RetryAble`, `ResetRequired` and `RejoinRequired`
hold exactly for the codes `XMIT_RETRY`, `XMIT_RESET` and `XMIT_REJOIN`, and none
of them holds for `XMIT_FAIL`.  The line `mac_tx_ok` is returned as port 0, an
empty payload and a nil error. -/
theorem ReadResult_outcome_table (rx : List (Option Char)) (tx : Str) (timeout : Int)
    (ht : timeout > 0) :
    (∀ p ∈ documentedOutcomes,
      ∃ e : Rn2483Error,
        (ReadResult ⟨deliver (p.1 ++ "\r\n".toList) ++ rx, tx⟩ timeout).1
          = Except.ok { port := 0, data := [], err := some (GoError.rn2483 e) }
        ∧ e.Error = p.1 ∧ e.value = p.2
        ∧ (e.RetryAble = true ↔ p.2 = XMIT_RETRY)
        ∧ (e.ResetRequired = true ↔ p.2 = XMIT_RESET)
        ∧ (e.RejoinRequired = true ↔ p.2 = XMIT_REJOIN)
        ∧ (p.2 = XMIT_FAIL →
            e.RetryAble = false ∧ e.ResetRequired = false ∧ e.RejoinRequired = false))
    ∧ (ReadResult ⟨deliver ("mac_tx_ok".toList ++ "\r\n".toList) ++ rx, tx⟩ timeout).1
        = Except.ok { port := 0, data := [], err := none } := by
  constructor
  · intro p hp
    simp only [documentedOutcomes, List.mem_cons, List.mem_singleton, List.not_mem_nil,
      or_false] at hp
    rcases hp with rfl | rfl | rfl | rfl | rfl | rfl | rfl | rfl | rfl
    all_goals
      rw [ReadResult_line _ (by decide) rx tx timeout ht]
      exact ⟨_, rfl, rfl, rfl, by decide, by decide, by decide, by decide⟩
  · rw [ReadResult_line _ (by decide) rx tx timeout ht]
    rfl

/-- Witness of C6: the budget of `Transmit` and nothing after the line. -/
theorem ReadResult_outcome_table_witness :
    (∀ p ∈ documentedOutcomes,
      ∃ e : Rn2483Error,
        (ReadResult ⟨deliver (p.1 ++ "\r\n".toList) ++ [], []⟩ 600000).1
          = Except.ok { port := 0, data := [], err := some (GoError.rn2483 e) }
        ∧ e.Error = p.1 ∧ e.value = p.2
        ∧ (e.RetryAble = true ↔ p.2 = XMIT_RETRY)
        ∧ (e.ResetRequired = true ↔ p.2 = XMIT_RESET)
        ∧ (e.RejoinRequired = true ↔ p.2 = XMIT_REJOIN)
        ∧ (p.2 = XMIT_FAIL →
            e.RetryAble = false ∧ e.ResetRequired = false ∧ e.RejoinRequired = false))
    ∧ (ReadResult ⟨deliver ("mac_tx_ok".toList ++ "\r\n".toList) ++ [], []⟩ 600000).1
        = Except.ok { port := 0, data := [], err := none } :=
  ReadResult_outcome_table [] [] 600000 (by decide)

/-! ## Completed lines -/

/-- When the accumulation loop is left, the budget is used up or a terminator
was matched, and the match count is at most the number of accumulated bytes. -/
theorem lineLoop_exit (quantum : Int) (hq : 0 < quantum) :
    ∀ (n : Nat) (rn : Port) (timeout : Int) (input : Str) (matched : Nat),
      rn.rx.length + timeout.toNat ≤ n → matched ≤ input.length →
      ¬ ((lineLoop quantum hq rn timeout input matched).2.1 > 0
          ∧ (lineLoop quantum hq rn timeout input matched).2.2.2 < eol.length)
      ∧ (lineLoop quantum hq rn timeout input matched).2.2.2
          ≤ (lineLoop quantum hq rn timeout input matched).2.2.1.length := by
  intro n
  induction n with
  | zero =>
    intro rn timeout input matched h hm
    rw [lineLoop_done _ _ _ _ _ _ (by omega)]
    exact ⟨by simp only; omega, hm⟩
  | succ k ih =>
    intro rn timeout input matched h hm
    obtain ⟨rx, tx⟩ := rn
    by_cases hc : timeout > 0 ∧ matched < eol.length
    · cases rx with
      | nil =>
        rw [lineLoop_nil _ _ _ _ _ _ hc.1 hc.2]
        exact ih _ _ _ _ (by simp at h ⊢; omega) hm
      | cons e r =>
        cases e with
        | none =>
          rw [lineLoop_none _ _ _ _ _ _ _ hc.1 hc.2]
          exact ih _ _ _ _ (by simp at h ⊢; omega) hm
        | some b =>
          rw [lineLoop_some _ _ _ _ _ _ _ _ hc.1 hc.2]
          split
          · exact ih _ _ _ _ (by simp at h ⊢; omega) (by simp; omega)
          · exact ih _ _ _ _ (by simp at h ⊢; omega) (by simp)
    · rw [lineLoop_done _ _ _ _ _ _ hc]
      exact ⟨hc, hm⟩

/-- A line completed within the budget is handed to the classifier. -/
theorem ReadResult_completed (rn : Port) (timeout : Int) (str : Str)
    (h : completedLine rn timeout = some str) :
    (ReadResult rn timeout).1 = classify str := by
  have h1 := lineLoop_exit 5 (by decide) _ rn timeout [] 0 (le_refl _) (by simp)
  unfold completedLine at h
  unfold ReadResult
  by_cases ht : (lineLoop 5 (by decide) rn timeout [] 0).2.1 > 0
  · simp only [ht, if_true, Option.some.injEq] at h
    have h2 : ¬ ((lineLoop 5 (by decide) rn timeout [] 0).2.2.1.length < 2) := by
      have h3 : eol.length = 2 := rfl
      omega
    have h4 : ¬ ((lineLoop 5 (by decide) rn timeout [] 0).2.1 ≤ 0) := by omega
    simp only [h2, h4, if_false, h]
  · simp only [ht, if_false] at h
    cases h

/-- Where `strings.Index` finds a space, a space is. -/
theorem IndexFrom_space :
    ∀ (s : Str) (i : Int), 0 ≤ i → 0 ≤ IndexFrom " ".toList s i →
      i ≤ IndexFrom " ".toList s i
      ∧ ∃ rest, s.drop (IndexFrom " ".toList s i - i).toNat = ' ' :: rest := by
  intro s
  induction s with
  | nil =>
    intro i _ h
    simp [IndexFrom] at h
  | cons c r ih =>
    intro i hi h
    by_cases hc : c = ' '
    · subst hc
      have h1 : IndexFrom " ".toList (' ' :: r) i = i := by
        simp [IndexFrom]
      rw [h1]
      exact ⟨le_refl _, r, by simp⟩
    · have h1 : IndexFrom " ".toList (c :: r) i = IndexFrom " ".toList r (i + 1) := by
        have hc1 : ¬ ' ' = c := fun h0 => hc h0.symm
        simp [IndexFrom, hc1]
      rw [h1] at h ⊢
      obtain ⟨h2, rest, h3⟩ := ih (i + 1) (by omega) h
      refine ⟨by omega, rest, ?_⟩
      have h4 : (IndexFrom " ".toList r (i + 1) - i).toNat
          = (IndexFrom " ".toList r (i + 1) - (i + 1)).toNat + 1 := by omega
      rw [h4, List.drop_succ_cons, h3]

/-- The decoder of `encoding/hex` rejects a text that starts with a space
before it writes anything. -/
theorem hexDecode_space (dst : List UInt8) (i : Nat) (rest : Str) :
    hexDecode dst i (' ' :: rest)
      = Except.ok (i, some (GoError.hexInvalidByte ' '), dst) := by
  cases rest with
  | nil => rfl
  | cons q r =>
    unfold hexDecode
    have h : fromHexChar ' ' = none := by decide
    simp [h]

/-- A line that holds the downlink marker is never returned as a downlink: the
port is 0, the payload empty, and the error is `Port not found` when the line
has no space and the error of the hexadecimal decoder otherwise. -/
theorem classify_rx (str : Str) (h : Contains str XMIT_MAC_RX = true) :
    classify str = Except.ok { port := 0, data := [],
                               err := some (GoError.message "Port not found".toList) }
    ∨ classify str = Except.ok { port := 0, data := [],
                                 err := some (GoError.hexInvalidByte ' ') } := by
  unfold classify
  simp only [h, if_true]
  by_cases hs : Index str " ".toList < 0
  · left
    simp only [hs, if_true]
  · right
    simp only [hs, if_false]
    obtain ⟨_, rest, h2⟩ := IndexFrom_space str 0 (le_refl _) (by unfold Index at hs; omega)
    have h3 : str.drop (Index str " ".toList).toNat = ' ' :: rest := by
      unfold Index
      simpa using h2
    rw [h3, hexDecode_space]
    simp

theorem completedLine_line (line : Str) (hcr : '\r' ∉ line) (rx : List (Option Char)) (tx : Str)
    (timeout : Int) (ht : timeout > 0) :
    completedLine ⟨deliver (line ++ "\r\n".toList) ++ rx, tx⟩ timeout = some line := by
  have h1 := lineLoop_line 5 (by decide) tx timeout ht rx line [] hcr
  unfold completedLine
  simp only [h1, ht, if_true, List.nil_append]
  simp

theorem xmit_response_absent (str : Str) (h : str ∉ xmit_response_keys) :
    xmit_response str = 0 := by
  simp only [xmit_response_keys, List.mem_cons, List.mem_singleton, List.not_mem_nil, or_false,
    not_or] at h
  obtain ⟨h1, h2, h3, h4, h5, h6, h7, h8, h9, h10, h11⟩ := h
  unfold xmit_response
  simp only [h1, h2, h3, h4, h5, h6, h7, h8, h9, h10, h11, if_false]

/-- C7, as amended: for every line completed within the budget that holds
neither the downlink marker `mac_rx` nor the marker `mac_tx_ok` and is not a key
of the outcome table, `ReadResult` returns port 0, an empty payload and an
`Rn2483Error` whose text is exactly the line and for which none of `RetryAble`,
`ResetRequired` and `RejoinRequired` holds. -/
theorem ReadResult_unrecognized (rn : Port) (timeout : Int) (str : Str)
    (h : completedLine rn timeout = some str)
    (hrx : Contains str XMIT_MAC_RX = false) (htx : Contains str XMIT_MAC_TX_OK = false)
    (hkey : str ∉ xmit_response_keys) :
    ∃ e : Rn2483Error,
      (ReadResult rn timeout).1
        = Except.ok { port := 0, data := [], err := some (GoError.rn2483 e) }
      ∧ e.Error = str
      ∧ e.RetryAble = false ∧ e.ResetRequired = false ∧ e.RejoinRequired = false := by
  refine ⟨{ msg := str, value := xmit_response str }, ?_, rfl, ?_, ?_, ?_⟩
  · rw [ReadResult_completed rn timeout str h, classify_no_rx str hrx]
    simp only [htx, Bool.false_eq_true, if_false]
    rfl
  all_goals
    simp only [Rn2483Error.RetryAble, Rn2483Error.ResetRequired, Rn2483Error.RejoinRequired,
      xmit_response_absent str hkey]
    decide

/-- Witness of C7: the line `foo`. -/
theorem ReadResult_unrecognized_witness :
    ∃ e : Rn2483Error,
      (ReadResult ⟨deliver ("foo".toList ++ "\r\n".toList) ++ [], []⟩ 600000).1
        = Except.ok { port := 0, data := [], err := some (GoError.rn2483 e) }
      ∧ e.Error = "foo".toList
      ∧ e.RetryAble = false ∧ e.ResetRequired = false ∧ e.RejoinRequired = false :=
  ReadResult_unrecognized _ 600000 "foo".toList
    (completedLine_line "foo".toList (by decide) [] [] 600000 (by decide))
    (by decide) (by decide) (by decide)

/-- C7, counterexample: the completed line `xmac_tx_ok` is not a downlink line,
is not the marker `mac_tx_ok` and is not a key of the outcome table, and
`ReadResult` returns a nil error for it.  (For a line such as `foo` the error
is not nil and carries the zero value of the map, which is `XMIT_OK`.) -/
theorem ReadResult_unrecognized_counterexample :
    (ReadResult ⟨deliver ("xmac_tx_ok".toList ++ "\r\n".toList) ++ [], []⟩ 600000).1
        = Except.ok { port := 0, data := [], err := none }
    ∧ Contains "xmac_tx_ok".toList XMIT_MAC_RX = false
    ∧ "xmac_tx_ok".toList ≠ XMIT_MAC_TX_OK
    ∧ "xmac_tx_ok".toList ∉ xmit_response_keys
    ∧ (ReadResult ⟨deliver ("foo".toList ++ "\r\n".toList) ++ [], []⟩ 600000).1
        = Except.ok { port := 0, data := [], err := some (NewError "foo".toList XMIT_OK) }
    ∧ XMIT_OK ≠ XMIT_FAIL := by
  refine ⟨?_, by decide, by decide, by decide, ?_, by decide⟩
  · rw [ReadResult_line "xmac_tx_ok".toList (by decide) [] [] 600000 (by decide)]
    rfl
  · rw [ReadResult_line "foo".toList (by decide) [] [] 600000 (by decide)]
    rfl

/-- C8, the code at the failing input: the downlink line `mac_rx 1 48656C6C6F`,
whose payload is the encoding `Transmit` uses for the bytes of `Hello`, is
returned with port 0, an empty payload and the error of the hexadecimal
decoder, which is given the text from the first space on, and so is the same
line without a space after the marker; the bare content `1 48656C6C6F` is
returned as an unrecognised line. -/
theorem ReadResult_downlink_failing_input :
    hexPayload [72, 101, 108, 108, 111] = "48656C6C6F".toList
    ∧ (ReadResult ⟨deliver ("mac_rx 1 48656C6C6F".toList ++ "\r\n".toList) ++ [], []⟩ 600000).1
        = Except.ok { port := 0, data := [], err := some (GoError.hexInvalidByte ' ') }
    ∧ (ReadResult ⟨deliver ("mac_rx1 48656C6C6F".toList ++ "\r\n".toList) ++ [], []⟩ 600000).1
        = Except.ok { port := 0, data := [], err := some (GoError.hexInvalidByte ' ') }
    ∧ (ReadResult ⟨deliver ("1 48656C6C6F".toList ++ "\r\n".toList) ++ [], []⟩ 600000).1
        = Except.ok { port := 0, data := [],
                      err := some (NewError "1 48656C6C6F".toList XMIT_OK) } := by
  refine ⟨by decide, ?_, ?_, ?_⟩
  · rw [ReadResult_line "mac_rx 1 48656C6C6F".toList (by decide) [] [] 600000 (by decide)]
    rfl
  · rw [ReadResult_line "mac_rx1 48656C6C6F".toList (by decide) [] [] 600000 (by decide)]
    rfl
  · rw [ReadResult_line "1 48656C6C6F".toList (by decide) [] [] 600000 (by decide)]
    rfl

/-- C9: for every line completed within the budget that holds the downlink
marker `mac_rx`, so also for one without a port separator or with a payload that
is not hexadecimal, `ReadResult` returns port 0, an empty payload and a non-nil
error, `Port not found` when the line has no space; the error is not an
`Rn2483Error`, so the caller never sees it as retryable, reset-required or
rejoin-required. -/
theorem ReadResult_malformed_downlink (rn : Port) (timeout : Int) (str : Str)
    (h : completedLine rn timeout = some str) (hrx : Contains str XMIT_MAC_RX = true) :
    ∃ e : GoError,
      (ReadResult rn timeout).1 = Except.ok { port := 0, data := [], err := some e }
      ∧ (Index str " ".toList < 0 → e = GoError.message "Port not found".toList)
      ∧ e.asRn2483 = none
      ∧ reportsRetryAble e = false ∧ reportsResetRequired e = false
      ∧ reportsRejoinRequired e = false := by
  rw [ReadResult_completed rn timeout str h]
  by_cases hs : Index str " ".toList < 0
  · refine ⟨GoError.message "Port not found".toList, ?_, fun _ => rfl, rfl, rfl, rfl, rfl⟩
    unfold classify
    simp only [hrx, hs, if_true]
  · rcases classify_rx str hrx with h1 | h1
    · exact ⟨_, h1, fun _ => rfl, rfl, rfl, rfl, rfl⟩
    · exact ⟨_, h1, fun h2 => absurd h2 hs, rfl, rfl, rfl, rfl⟩

/-- Witness of C9: a downlink line whose content `48656C6C6F` has no port
separator. -/
theorem ReadResult_malformed_downlink_witness :
    ∃ e : GoError,
      (ReadResult ⟨deliver ("mac_rx 48656C6C6F".toList ++ "\r\n".toList) ++ [], []⟩ 600000).1
        = Except.ok { port := 0, data := [], err := some e }
      ∧ (Index "mac_rx 48656C6C6F".toList " ".toList < 0
          → e = GoError.message "Port not found".toList)
      ∧ e.asRn2483 = none
      ∧ reportsRetryAble e = false ∧ reportsResetRequired e = false
      ∧ reportsRejoinRequired e = false :=
  ReadResult_malformed_downlink _ 600000 "mac_rx 48656C6C6F".toList
    (completedLine_line "mac_rx 48656C6C6F".toList (by decide) [] [] 600000 (by decide))
    (by decide)

/-- C10, the code at the failing inputs: on a port that delivers no byte, or
one byte only, `ReadResult` does not return: the slice of the accumulated input
is out of range and the program panics, whatever the budget. -/
theorem ReadResult_short_input_panics (tx : Str) (timeout : Int) (b : Char) :
    (ReadResult ⟨[], tx⟩ timeout).1 = Except.error GoPanic.sliceBoundsOutOfRange
    ∧ (ReadResult ⟨[some b], tx⟩ timeout).1 = Except.error GoPanic.sliceBoundsOutOfRange := by
  constructor
  · obtain ⟨t1, _, h2⟩ :=
      lineLoop_silent 5 (by decide) tx [] 0 (by decide) timeout.toNat timeout (le_refl _)
    unfold ReadResult
    simp [h2]
  · unfold ReadResult
    by_cases ht : timeout > 0
    · rw [lineLoop_some _ _ _ _ _ _ _ _ ht (by decide)]
      split
      · obtain ⟨t1, _, h2⟩ := lineLoop_silent 5 (by decide) tx [b] 1 (by decide)
          timeout.toNat timeout (le_refl _)
        simp [h2]
      · obtain ⟨t1, _, h2⟩ := lineLoop_silent 5 (by decide) tx [b] 0 (by decide)
          timeout.toNat timeout (le_refl _)
        simp [h2]
    · rw [lineLoop_done _ _ _ _ _ _ (fun hc => ht hc.1)]
      simp

/-! ## Line reading -/

/-- The accumulation loop on a line that holds no terminator and does not end
in a carriage return, followed by the terminator: started with no match, or
with the carriage return matched when the line does not go on with a line
feed, it accumulates the line and the terminator and stops there. -/
theorem lineLoop_line_general (quantum : Int) (hq : 0 < quantum) (tx : Str) (timeout : Int)
    (ht : timeout > 0) (rx : List (Option Char)) :
    ∀ (s input : Str) (m : Nat), (m = 0 ∨ (m = 1 ∧ s ≠ [] ∧ s.head? ≠ some '\n')) →
      hasCRLF s = false → s.getLast? ≠ some '\r' →
      lineLoop quantum hq ⟨deliver (s ++ "\r\n".toList) ++ rx, tx⟩ timeout input m
        = (⟨rx, tx⟩, timeout, input ++ s ++ "\r\n".toList, 2) := by
  intro s
  induction s with
  | nil =>
    intro input m hm _ _
    rcases hm with rfl | ⟨_, h, _⟩
    · exact lineLoop_line quantum hq tx timeout ht rx [] input (by simp)
    · exact absurd rfl h
  | cons c r ih =>
    intro input m hm hcrlf hlast
    have h1 : deliver (c :: r ++ "\r\n".toList) ++ rx
        = some c :: (deliver (r ++ "\r\n".toList) ++ rx) := rfl
    have hr1 : hasCRLF r = false := by
      cases r with
      | nil => rfl
      | cons d r2 =>
        simp only [hasCRLF, Bool.or_eq_false_iff] at hcrlf
        exact hcrlf.2
    have hr2 : r.getLast? ≠ some '\r' := by
      cases r with
      | nil => simp
      | cons d r2 => simpa [List.getLast?_cons_cons] using hlast
    have happ : input ++ [c] ++ r ++ "\r\n".toList = input ++ c :: r ++ "\r\n".toList := by simp
    rcases hm with rfl | ⟨rfl, _, hhead⟩
    · rw [h1, lineLoop_some _ _ _ _ _ _ _ _ ht (by decide)]
      by_cases hc : c = '\r'
      · subst hc
        rw [if_pos (show eol[0] = '\r' from by decide)]
        have hr3 : r ≠ [] := by
          intro h0
          subst h0
          exact hlast rfl
        have hr4 : r.head? ≠ some '\n' := by
          cases r with
          | nil => simp
          | cons d r2 =>
            simp only [hasCRLF, Bool.or_eq_false_iff, Bool.and_eq_false_iff] at hcrlf
            intro h0
            simp only [List.head?_cons, Option.some.injEq] at h0
            subst h0
            simp at hcrlf
        rw [ih (input ++ ['\r']) (0 + 1) (Or.inr ⟨rfl, hr3, hr4⟩) hr1 hr2, happ]
      · rw [if_neg (show ¬ eol[0] = c from fun h0 => hc h0.symm),
          ih (input ++ [c]) 0 (Or.inl rfl) hr1 hr2, happ]
    · rw [h1, lineLoop_some _ _ _ _ _ _ _ _ ht (by decide)]
      have hc : ¬ eol[1] = c := by
        intro h0
        apply hhead
        rw [← h0]
        rfl
      rw [if_neg hc, ih (input ++ [c]) 0 (Or.inl rfl) hr1 hr2, happ]

/-- C11, as amended: for every text `s` that holds no carriage return followed
by a line feed and does not end in a carriage return, every following text and
every positive budget, on the input `s`, terminator, rest, `ReadLine` reports
no timeout, returns exactly `s` and leaves exactly the rest unread; the loop of
`ReadResult` completes the same line `s` and leaves the same rest. -/
theorem ReadLine_stops_at_terminator (s rest : Str) (tx : Str) (timeout : Int)
    (ht : timeout > 0) (hcrlf : hasCRLF s = false) (hlast : s.getLast? ≠ some '\r') :
    ReadLine ⟨deliver (s ++ "\r\n".toList ++ rest), tx⟩ timeout
        = (Except.ok (s, false), ⟨deliver rest, tx⟩)
    ∧ completedLine ⟨deliver (s ++ "\r\n".toList ++ rest), tx⟩ timeout = some s
    ∧ (ReadResult ⟨deliver (s ++ "\r\n".toList ++ rest), tx⟩ timeout).2 = ⟨deliver rest, tx⟩ := by
  have h0 : deliver (s ++ "\r\n".toList ++ rest) = deliver (s ++ "\r\n".toList) ++ deliver rest :=
    deliver_append _ _
  have h10 := lineLoop_line_general 10 (by decide) tx timeout ht (deliver rest) s [] 0
    (Or.inl rfl) hcrlf hlast
  have h5 := lineLoop_line_general 5 (by decide) tx timeout ht (deliver rest) s [] 0
    (Or.inl rfl) hcrlf hlast
  have h2 : ¬ ((s ++ "\r\n".toList).length < 2) := by simp
  have h3 : (s ++ "\r\n".toList).take ((s ++ "\r\n".toList).length - 2) = s := by simp
  have h4 : ¬ (timeout ≤ 0) := by omega
  refine ⟨?_, ?_, ?_⟩
  · unfold ReadLine
    simp only [h0, h10, List.nil_append, h2, h3, h4, if_false, decide_False]
  · unfold completedLine
    simp only [h0, h5, List.nil_append, h3, ht, if_true]
  · unfold ReadResult
    simp only [h0, h5, List.nil_append, h2, h4, if_false]

/-- Witness of C11: a line with a carriage return inside, and a second line
after it. -/
theorem ReadLine_stops_at_terminator_witness :
    ReadLine ⟨deliver ("mac\rpaused".toList ++ "\r\n".toList ++ "ok\r\n".toList), []⟩ 10000
        = (Except.ok ("mac\rpaused".toList, false), ⟨deliver "ok\r\n".toList, []⟩)
    ∧ completedLine ⟨deliver ("mac\rpaused".toList ++ "\r\n".toList ++ "ok\r\n".toList), []⟩ 10000
        = some "mac\rpaused".toList
    ∧ (ReadResult ⟨deliver ("mac\rpaused".toList ++ "\r\n".toList ++ "ok\r\n".toList), []⟩
        10000).2 = ⟨deliver "ok\r\n".toList, []⟩ :=
  ReadLine_stops_at_terminator "mac\rpaused".toList "ok\r\n".toList [] 10000 (by decide)
    (by decide) (by decide)

/-- C11, counterexample: the text `a\r` holds no carriage return followed by a
line feed; on the input `a\r`, terminator, `b\r\n` the reader does not stop at
the first terminator: it returns the line `a\r\r\nb` and leaves nothing
unread. -/
theorem ReadLine_trailing_cr_counterexample :
    hasCRLF "a\r".toList = false
    ∧ ReadLine ⟨deliver ("a\r".toList ++ "\r\n".toList ++ "b\r\n".toList), []⟩ 10000
        = (Except.ok ("a\r\r\nb".toList, false), ⟨[], []⟩) := by
  refine ⟨by decide, ?_⟩
  have h1 : deliver ("a\r".toList ++ "\r\n".toList ++ "b\r\n".toList)
      = some 'a' :: some '\r' :: some '\r' :: some '\n' :: (deliver ("b".toList ++ "\r\n".toList)
          ++ []) := by decide
  have h2 := lineLoop_line 10 (by decide) [] 10000 (by decide) [] "b".toList "a\r\r\n".toList
    (by decide)
  unfold ReadLine
  rw [h1, lineLoop_some _ _ _ _ _ _ _ _ (by decide) (by decide),
    if_neg (show ¬ eol[0] = 'a' from by decide),
    lineLoop_some _ _ _ _ _ _ _ _ (by decide) (by decide),
    if_pos (show eol[0] = '\r' from by decide),
    lineLoop_some _ _ _ _ _ _ _ _ (by decide) (by decide),
    if_neg (show ¬ eol[0 + 1] = '\r' from by decide),
    lineLoop_some _ _ _ _ _ _ _ _ (by decide) (by decide),
    if_neg (show ¬ eol[0] = '\n' from by decide)]
  have h3 : ([] : Str) ++ ['a'] ++ ['\r'] ++ ['\r'] ++ ['\n'] = "a\r\r\n".toList := by decide
  rw [h3, h2]
  rfl

/-! ## The limitation of the matcher -/

/-- C18: the pattern `aab` is not matched on a port that delivers `aaab` and
then nothing, whatever the positive budget: the third byte resets the match
count without being compared with the start of the pattern, and the bytes are
all read off. -/
theorem expect_aab_on_aaab (tx : Str) (timeout : Int) (ht : timeout > 0) (readline : Bool) :
    expect ⟨deliver "aaab".toList, tx⟩ "aab".toList timeout readline = (false, ⟨[], tx⟩) := by
  obtain ⟨t1, _, h2⟩ :=
    expectLoop_silent "aab".toList tx 0 (by decide) timeout.toNat timeout (le_refl _)
  have h1 : deliver "aaab".toList = [some 'a', some 'a', some 'a', some 'b'] := by decide
  unfold expect
  rw [h1, expectLoop_some _ _ _ _ _ _ ht (by decide),
    if_pos (show "aab".toList[0] = 'a' from by decide),
    expectLoop_some _ _ _ _ _ _ ht (by decide),
    if_pos (show "aab".toList[0 + 1] = 'a' from by decide),
    expectLoop_some _ _ _ _ _ _ ht (by decide),
    if_neg (show ¬ "aab".toList[0 + 1 + 1] = 'a' from by decide),
    expectLoop_some _ _ _ _ _ _ ht (by decide),
    if_neg (show ¬ "aab".toList[0] = 'b' from by decide), h2]
  have h3 : ¬ (0 ≥ "aab".toList.length) := by decide
  simp only [h3, if_false]

/-- Witness of C18: the budget of a command acknowledgment. -/
theorem expect_aab_on_aaab_witness :
    expect ⟨deliver "aaab".toList, []⟩ "aab".toList 1000 true = (false, ⟨[], []⟩) :=
  expect_aab_on_aaab [] 1000 (by decide) true

/-! ## Reset without a check of the result -/

theorem flushInput_nil (tx : Str) : flushInput ⟨[], tx⟩ = ⟨[], tx⟩ := by
  rw [flushInput]
  simp [Port.Read]

theorem flushInput_some (b : Char) (rx : List (Option Char)) (tx : Str) :
    flushInput ⟨some b :: rx, tx⟩ = flushInput ⟨rx, tx⟩ := by
  rw [flushInput]
  simp [Port.Read]

theorem flushInput_none (rx : List (Option Char)) (tx : Str) :
    flushInput ⟨none :: rx, tx⟩ = ⟨rx, tx⟩ := by
  rw [flushInput]
  simp [Port.Read]

/-- Buffered bytes are all read off by `flushInput`. -/
theorem flushInput_deliver (tx : Str) : ∀ bs : Str, flushInput ⟨deliver bs, tx⟩ = ⟨[], tx⟩ := by
  intro bs
  induction bs with
  | nil => exact flushInput_nil tx
  | cons b r ih =>
    have h : deliver (b :: r) = some b :: deliver r := rfl
    rw [h, flushInput_some, ih]

theorem Reset_false_deliver (bs : Str) (tx : Str) :
    Reset ⟨deliver bs, tx⟩ false = (true, ⟨[], tx ++ "sys reset\r\n".toList⟩) := by
  have h : SYS_RESET_STR ++ "\r\n".toList = "sys reset\r\n".toList := by decide
  simp only [Reset, Send_mk, Bool.false_eq_true, if_false, flushInput_deliver, h]

/-- C20: on a port with finitely many buffered bytes, `n` consecutive calls
`Reset(false)` all return true, each of them writes exactly `sys reset\r\n`,
and after each of them no input is left: the next read returns no byte. -/
theorem Reset_false_repeated (bs : Str) (tx : Str) (n : Nat) :
    resetCalls n ⟨deliver bs, tx⟩
        = (List.range n).map (fun k =>
            (true, ⟨[], tx ++ (List.replicate (k + 1) "sys reset\r\n".toList).flatten⟩))
    ∧ ∀ r ∈ resetCalls n ⟨deliver bs, tx⟩, r.1 = true ∧ r.2.rx = [] ∧ r.2.Read.1 = none := by
  have h1 : ∀ (n : Nat) (bs tx : Str), resetCalls n ⟨deliver bs, tx⟩
      = (List.range n).map (fun k =>
          (true, (⟨[], tx ++ (List.replicate (k + 1) "sys reset\r\n".toList).flatten⟩ : Port))) := by
    intro n
    induction n with
    | zero => intro bs tx; rfl
    | succ k ih =>
      intro bs tx
      have h2 := ih [] (tx ++ "sys reset\r\n".toList)
      rw [deliver_nil] at h2
      rw [resetCalls, Reset_false_deliver, h2, List.range_succ_eq_map, List.map_cons,
        List.map_map]
      congr 1
      apply List.map_congr_left
      intro a _
      simp only [Function.comp_apply, List.replicate_succ, List.flatten_cons, List.append_assoc]
  refine ⟨h1 n bs tx, ?_⟩
  intro r hr
  rw [h1 n bs tx, List.mem_map] at hr
  obtain ⟨k, _, rfl⟩ := hr
  exact ⟨rfl, rfl, rfl⟩

/-! ## The matcher and its budget -/

theorem bytesOf_nil : bytesOf [] = [] := rfl

theorem bytesOf_none (ev : List (Option Char)) : bytesOf (none :: ev) = bytesOf ev := rfl

theorem bytesOf_some (b : Char) (ev : List (Option Char)) :
    bytesOf (some b :: ev) = b :: bytesOf ev := rfl

theorem bytesOf_append (a b : List (Option Char)) : bytesOf (a ++ b) = bytesOf a ++ bytesOf b := by
  simp [bytesOf]

theorem bytesOf_deliver (s : Str) : bytesOf (deliver s) = s := by
  induction s with
  | nil => rfl
  | cons c r ih =>
    have h : deliver (c :: r) = some c :: deliver r := rfl
    rw [h, bytesOf_some, ih]

theorem polls_nil : polls [] = 0 := rfl

theorem polls_none (ev : List (Option Char)) : polls (none :: ev) = polls ev + 1 := by
  simp [polls]

theorem polls_some (b : Char) (ev : List (Option Char)) : polls (some b :: ev) = polls ev := by
  simp [polls]

theorem polls_deliver (s : Str) : polls (deliver s) = 0 := by
  induction s with
  | nil => rfl
  | cons c r ih =>
    have h : deliver (c :: r) = some c :: deliver r := rfl
    rw [h, polls_some, ih]

theorem matchCount_nil (str : Str) (m : Nat) : matchCount str m [] = m := rfl

theorem matchCount_cons (str : Str) (m : Nat) (b : Char) (bs : Str) :
    matchCount str m (b :: bs) = matchCount str (matchStep str m b) bs := rfl

theorem matchCount_append (str : Str) (m : Nat) (a b : Str) :
    matchCount str m (a ++ b) = matchCount str (matchCount str m a) b := by
  simp [matchCount, List.foldl_append]

/-- A completed count stays as it is. -/
theorem matchCount_done (str : Str) : ∀ (bs : Str) (m : Nat), str.length ≤ m →
    matchCount str m bs = m := by
  intro bs
  induction bs with
  | nil => intro m _; rfl
  | cons b r ih =>
    intro m h
    have h1 : matchStep str m b = m := by
      unfold matchStep
      rw [if_neg (by omega)]
    rw [matchCount_cons, h1, ih m h]

theorem matchStep_le (str : Str) (m : Nat) (b : Char) (h : m ≤ str.length) :
    matchStep str m b ≤ str.length := by
  unfold matchStep
  split
  · split <;> omega
  · exact h

/-- Bytes that differ from the first byte of the pattern leave the count at
zero. -/
theorem matchCount_skip (str : Str) (hs : 0 < str.length) :
    ∀ pre : Str, str[0] ∉ pre → matchCount str 0 pre = 0 := by
  intro pre
  induction pre with
  | nil => intro _; rfl
  | cons c r ih =>
    intro h
    simp only [List.mem_cons, not_or] at h
    have h1 : matchStep str 0 c = 0 := by
      unfold matchStep
      rw [if_pos hs, List.getElem?_eq_getElem hs]
      rw [if_neg (fun h0 => h.1 (Option.some.inj h0))]
    rw [matchCount_cons, h1, ih h.2]

/-- The first `k` bytes of the pattern bring the count from zero to `k`. -/
theorem matchCount_take (str : Str) : ∀ k : Nat, k ≤ str.length →
    matchCount str 0 (str.take k) = k := by
  intro k
  induction k with
  | zero => intro _; rfl
  | succ k ih =>
    intro h
    have hk : k < str.length := by omega
    have h1 : str.take (k + 1) = str.take k ++ [str[k]] := by
      rw [List.take_succ, List.getElem?_eq_getElem hk]
      rfl
    rw [h1, matchCount_append, ih (by omega), matchCount_cons, matchCount_nil]
    unfold matchStep
    rw [if_pos hk, List.getElem?_eq_getElem hk, if_pos rfl]

/-- The step of the first loop of `expect` on a byte is the step of the count. -/
theorem expectLoop_some_step (str : Str) (b : Char) (rx : List (Option Char)) (tx : Str)
    (timeout : Int) (matched : Nat) (ht : timeout > 0) (hm : matched < str.length) :
    expectLoop str ⟨some b :: rx, tx⟩ timeout matched
      = expectLoop str ⟨rx, tx⟩ timeout (matchStep str matched b) := by
  rw [expectLoop_some str b rx tx timeout matched ht hm]
  unfold matchStep
  rw [if_pos hm, List.getElem?_eq_getElem hm]
  by_cases hb : str[matched] = b
  · rw [if_pos hb, if_pos (by rw [hb])]
  · rw [if_neg hb, if_neg (fun h0 => hb (Option.some.inj h0))]

/-- Budget accounting of the first loop of `expect`: while the pattern is not
complete and the empty reads have not used up the budget, a run of reads takes
five from the budget for every empty read and nothing for a byte. -/
theorem expectLoop_run (str : Str) (rx : List (Option Char)) (tx : Str) :
    ∀ (ev : List (Option Char)) (timeout : Int) (matched : Nat),
      matchCount str matched (bytesOf ev) < str.length → 5 * (polls ev : Int) < timeout →
      expectLoop str ⟨ev ++ rx, tx⟩ timeout matched
        = expectLoop str ⟨rx, tx⟩ (timeout - 5 * (polls ev : Int))
            (matchCount str matched (bytesOf ev)) := by
  intro ev
  induction ev with
  | nil =>
    intro timeout matched _ _
    simp [polls_nil, bytesOf_nil, matchCount_nil]
  | cons e r ih =>
    intro timeout matched hc hb
    have hm : matched < str.length := by
      by_contra h0
      rw [matchCount_done str _ matched (by omega)] at hc
      exact h0 hc
    cases e with
    | none =>
      rw [polls_none] at hb ⊢
      rw [bytesOf_none] at hc ⊢
      push_cast at hb ⊢
      rw [List.cons_append, expectLoop_none _ _ _ _ _ (by omega) hm,
        ih (timeout - 5) matched hc (by omega)]
      congr 1
      omega
    | some b =>
      rw [polls_some] at hb ⊢
      rw [bytesOf_some, matchCount_cons] at hc ⊢
      rw [List.cons_append, expectLoop_some_step _ _ _ _ _ _ (by omega) hm,
        ih timeout (matchStep str matched b) hc hb]

/-- The byte that completes the pattern ends the first loop of `expect`. -/
theorem expectLoop_completes (str : Str) (a : List (Option Char)) (b : Char)
    (rx : List (Option Char)) (tx : Str) (timeout : Int)
    (hopen : matchCount str 0 (bytesOf a) < str.length)
    (hdone : matchCount str 0 (bytesOf a ++ [b]) = str.length)
    (hb : 5 * (polls a : Int) < timeout) :
    expectLoop str ⟨a ++ some b :: rx, tx⟩ timeout 0
      = (⟨rx, tx⟩, timeout - 5 * (polls a : Int), str.length) := by
  rw [expectLoop_run str _ tx a timeout 0 hopen hb,
    expectLoop_some_step _ _ _ _ _ _ (by omega) hopen]
  rw [matchCount_append, matchCount_cons, matchCount_nil] at hdone
  rw [hdone, expectLoop_done _ _ _ _ (by omega)]

/-- The empty read that uses up the budget ends the first loop of `expect`. -/
theorem expectLoop_expires (str : Str) (a : List (Option Char)) (rx : List (Option Char))
    (tx : Str) (timeout : Int)
    (hopen : matchCount str 0 (bytesOf a) < str.length)
    (hb : 5 * (polls a : Int) < timeout) (he : timeout ≤ 5 * ((polls a : Int) + 1)) :
    expectLoop str ⟨a ++ none :: rx, tx⟩ timeout 0
      = (⟨rx, tx⟩, timeout - 5 * (polls a : Int) - 5, matchCount str 0 (bytesOf a)) := by
  rw [expectLoop_run str _ tx a timeout 0 hopen hb,
    expectLoop_none _ _ _ _ _ (by omega) hopen, expectLoop_done _ _ _ _ (by omega)]

/-- A run of reads that delivers bytes on which the count stays zero and then
the pattern, with the last byte of the pattern read while budget is left,
completes the first loop of `expect` at that byte. -/
theorem expectLoop_pattern (str : Str) (hs : 0 < str.length) (pre : Str)
    (ev : List (Option Char)) (b : Char) (rx : List (Option Char)) (tx : Str) (timeout : Int)
    (hbytes : bytesOf (ev ++ [some b]) = pre ++ str) (hzero : matchCount str 0 pre = 0)
    (hb : 5 * (polls ev : Int) < timeout) :
    expectLoop str ⟨ev ++ some b :: rx, tx⟩ timeout 0
      = (⟨rx, tx⟩, timeout - 5 * (polls ev : Int), str.length) := by
  have hk : str.length - 1 < str.length := by omega
  have h1 : str = str.take (str.length - 1) ++ [str[str.length - 1]] := by
    have h2 := List.take_succ (l := str) (n := str.length - 1)
    rw [List.getElem?_eq_getElem hk] at h2
    have h3 : str.length - 1 + 1 = str.length := by omega
    rw [h3, List.take_length] at h2
    exact h2
  have h4 : bytesOf ev ++ [b] = (pre ++ str.take (str.length - 1)) ++ [str[str.length - 1]] := by
    rw [List.append_assoc, ← h1, ← hbytes, bytesOf_append]
    rfl
  obtain ⟨h5, h6⟩ := List.append_inj' h4 rfl
  have hopen : matchCount str 0 (bytesOf ev) < str.length := by
    rw [h5, matchCount_append, hzero, matchCount_take str _ (by omega)]
    exact hk
  have hdone : matchCount str 0 (bytesOf ev ++ [b]) = str.length := by
    have h7 : bytesOf ev ++ [b] = pre ++ str := by
      rw [← hbytes, bytesOf_append]
      rfl
    rw [h7, matchCount_append, hzero]
    have h8 := matchCount_take str str.length (le_refl _)
    rw [List.take_length] at h8
    exact h8
  exact expectLoop_completes str ev b rx tx timeout hopen hdone hb

/-- Once the first loop of `expect` has matched the pattern, `expect` reports
success. -/
theorem expect_of_loop (str : Str) (rn rn1 : Port) (timeout t1 : Int) (readline : Bool)
    (h : expectLoop str rn timeout 0 = (rn1, t1, str.length)) :
    (expect rn str timeout readline).1 = true := by
  unfold expect
  rw [h]
  simp only [ge_iff_le, le_refl, if_true]
  cases readline <;> simp

/-- C14, as amended: for every non-empty pattern, every positive budget and
every run of reads that delivers, with fewer empty reads than the budget
allows, some bytes and then the pattern: if the count of matched bytes is zero
when the pattern begins, as it is when the first byte of the pattern is not
among the bytes before it, `expect` returns success. -/
theorem expect_complete (str : Str) (hs : 0 < str.length) (pre : Str)
    (ev : List (Option Char)) (b : Char) (rx : List (Option Char)) (tx : Str) (timeout : Int)
    (readline : Bool) (hbytes : bytesOf (ev ++ [some b]) = pre ++ str)
    (hzero : matchCount str 0 pre = 0) (hb : 5 * (polls ev : Int) < timeout) :
    (str[0] ∉ pre → matchCount str 0 pre = 0)
    ∧ (expect ⟨ev ++ some b :: rx, tx⟩ str timeout readline).1 = true :=
  ⟨matchCount_skip str hs pre,
   expect_of_loop str _ _ timeout _ readline
     (expectLoop_pattern str hs pre ev b rx tx timeout hbytes hzero hb)⟩

/-- Witness of C14: the token `ok` after an echo of the command and an empty
read. -/
theorem expect_complete_witness :
    ("ok".toList[0] ∉ "mac tx\r\n".toList → matchCount "ok".toList 0 "mac tx\r\n".toList = 0)
    ∧ (expect ⟨(deliver "mac tx\r\n".toList ++ [none, some 'o']) ++ some 'k'
          :: deliver "\r\n".toList, []⟩ "ok".toList 1000 true).1 = true :=
  expect_complete "ok".toList (by decide) "mac tx\r\n".toList
    (deliver "mac tx\r\n".toList ++ [none, some 'o']) 'k' (deliver "\r\n".toList) [] 1000 true
    (by decide) (by decide) (by decide)

/-- C14, counterexample: the port delivers `aab`, which holds the pattern `ab`,
without any empty read, and `expect` reports a timeout. -/
theorem expect_complete_counterexample :
    Contains "aab".toList "ab".toList = true
    ∧ expect ⟨deliver "aab".toList, []⟩ "ab".toList 1000 false = (false, ⟨[], []⟩) := by
  refine ⟨by decide, ?_⟩
  obtain ⟨t1, _, h2⟩ :=
    expectLoop_silent "ab".toList [] 0 (by decide) (1000 : Int).toNat 1000 (le_refl _)
  have h1 : deliver "aab".toList = [some 'a', some 'a', some 'b'] := by decide
  unfold expect
  rw [h1, expectLoop_some _ _ _ _ _ _ (by decide) (by decide),
    if_pos (show "ab".toList[0] = 'a' from by decide),
    expectLoop_some _ _ _ _ _ _ (by decide) (by decide),
    if_neg (show ¬ "ab".toList[0 + 1] = 'a' from by decide),
    expectLoop_some _ _ _ _ _ _ (by decide) (by decide),
    if_neg (show ¬ "ab".toList[0] = 'b' from by decide), h2]
  have h3 : ¬ (0 ≥ "ab".toList.length) := by decide
  simp only [h3, if_false]

/-- C16, as amended: for each of the tokens `ok`, `accepted` and `RN2483` and
every run of reads that delivers, with fewer empty reads than the budget
allows, some bytes that do not hold the first byte of the token and then the
token, `expect` returns success. -/
theorem expect_token (tok : Str)
    (htok : tok ∈ ["ok".toList, "accepted".toList, "RN2483".toList]) (pre : Str)
    (ev : List (Option Char)) (b : Char) (rx : List (Option Char)) (tx : Str) (timeout : Int)
    (readline : Bool) (hbytes : bytesOf (ev ++ [some b]) = pre ++ tok)
    (hpre : ∀ c, tok.head? = some c → c ∉ pre) (hb : 5 * (polls ev : Int) < timeout) :
    (expect ⟨ev ++ some b :: rx, tx⟩ tok timeout readline).1 = true := by
  have hs : 0 < tok.length := by
    simp only [List.mem_cons, List.mem_singleton, List.not_mem_nil, or_false] at htok
    rcases htok with rfl | rfl | rfl <;> decide
  have h0 : tok[0] ∉ pre := by
    apply hpre
    rw [List.head?_eq_getElem?, List.getElem?_eq_getElem hs]
  exact expect_of_loop tok _ _ timeout _ readline
    (expectLoop_pattern tok hs pre ev b rx tx timeout hbytes (matchCount_skip tok hs pre h0) hb)

/-- Witness of C16: the banner of the module after a line feed. -/
theorem expect_token_witness :
    (expect ⟨(deliver "\nRN248".toList) ++ some '3' :: deliver " 1.0.1\r\n".toList, []⟩
        "RN2483".toList 10000 true).1 = true :=
  expect_token "RN2483".toList (by decide) "\n".toList (deliver "\nRN248".toList) '3'
    (deliver " 1.0.1\r\n".toList) [] 10000 true (by decide) (by decide) (by decide)

/-- A pattern is not matched on a port that delivers its first byte, then the
pattern, and then nothing, when the second byte of the pattern differs from the
first and the first byte does not come again in the pattern. -/
theorem expect_doubled_first (str : Str) (c d : Char) (r : Str) (hstr : str = c :: d :: r)
    (hcd : c ≠ d) (hr : c ∉ r) (tx : Str) (timeout : Int) (ht : timeout > 0) (readline : Bool) :
    expect ⟨deliver (c :: str), tx⟩ str timeout readline = (false, ⟨[], tx⟩) := by
  subst hstr
  have hs : 0 < (c :: d :: r).length := by simp
  obtain ⟨t1, _, h2⟩ := expectLoop_absent (c :: d :: r) hs (d :: r)
    (by simp only [List.getElem_cons_zero, List.mem_cons, not_or]; exact ⟨hcd, hr⟩)
    tx timeout ht
  have h1 : deliver (c :: c :: d :: r) = some c :: some c :: deliver (d :: r) := rfl
  unfold expect
  rw [h1, expectLoop_some _ _ _ _ _ _ ht hs, if_pos (show (c :: d :: r)[0] = c from rfl),
    expectLoop_some _ _ _ _ _ _ ht (show 0 + 1 < (c :: d :: r).length from by simp),
    if_neg (show ¬ (c :: d :: r)[0 + 1] = c from fun h0 => hcd h0.symm), h2]
  have h3 : ¬ (0 ≥ (c :: d :: r).length) := by simp
  simp only [h3, if_false]

/-- C16, counterexample: each of the three tokens, delivered right after its
own first byte, is not matched. -/
theorem expect_token_counterexample :
    Contains "ook".toList "ok".toList = true
    ∧ expect ⟨deliver "ook".toList, []⟩ "ok".toList 1000 true = (false, ⟨[], []⟩)
    ∧ Contains "aaccepted".toList "accepted".toList = true
    ∧ expect ⟨deliver "aaccepted".toList, []⟩ "accepted".toList 15000 true = (false, ⟨[], []⟩)
    ∧ Contains "RRN2483".toList "RN2483".toList = true
    ∧ expect ⟨deliver "RRN2483".toList, []⟩ "RN2483".toList 10000 true = (false, ⟨[], []⟩) :=
  ⟨by decide,
   expect_doubled_first "ok".toList 'o' 'k' [] rfl (by decide) (by decide) [] 1000 (by decide) true,
   by decide,
   expect_doubled_first "accepted".toList 'a' 'c' "cepted".toList rfl (by decide) (by decide) []
     15000 (by decide) true,
   by decide,
   expect_doubled_first "RN2483".toList 'R' 'N' "2483".toList rfl (by decide) (by decide) []
     10000 (by decide) true⟩

/-- C19: budget accounting of `expect`.  When the pattern is not completed by
the reads before the empty read that is number `ceil(timeout / 5)`, `expect`
returns a timeout exactly at that empty read, however many bytes were read
before it.  When a byte completes the pattern and fewer than
`ceil(timeout / 5)` empty reads came before it, `expect` returns success and
the matching loop stops at that byte, with five taken from the budget for every
empty read and nothing for a byte. -/
theorem expect_budget (str : Str) (timeout : Int) (ht : timeout > 0) (tx : Str)
    (readline : Bool)
    (a1 rx1 : List (Option Char)) (hopen1 : matchCount str 0 (bytesOf a1) < str.length)
    (hceil : (polls a1 : Int) + 1 = (timeout + 4) / 5)
    (a2 rx2 : List (Option Char)) (b : Char)
    (hopen2 : matchCount str 0 (bytesOf a2) < str.length)
    (hdone : matchCount str 0 (bytesOf a2 ++ [b]) = str.length)
    (hbefore : (polls a2 : Int) < (timeout + 4) / 5) :
    expect ⟨a1 ++ none :: rx1, tx⟩ str timeout readline = (false, ⟨rx1, tx⟩)
    ∧ (expect ⟨a2 ++ some b :: rx2, tx⟩ str timeout readline).1 = true
    ∧ expectLoop str ⟨a2 ++ some b :: rx2, tx⟩ timeout 0
        = (⟨rx2, tx⟩, timeout - 5 * (polls a2 : Int), str.length) := by
  have h1 := expectLoop_expires str a1 rx1 tx timeout hopen1 (by omega) (by omega)
  have h2 := expectLoop_completes str a2 b rx2 tx timeout hopen2 hdone (by omega)
  refine ⟨?_, expect_of_loop str _ _ timeout _ readline h2, h2⟩
  unfold expect
  rw [h1]
  have h3 : ¬ (matchCount str 0 (bytesOf a1) ≥ str.length) := by omega
  simp only [h3, if_false]

/-- Witness of C19: the budget 12 allows three empty reads; the pattern `ok`
is not completed by `o`, `x`, `k` before the third, and is completed by
`x`, `o`, `k` after two. -/
theorem expect_budget_witness :
    expect ⟨[some 'o', none, some 'x', none, some 'k'] ++ none :: [some 'o', some 'k'], []⟩
        "ok".toList 12 true = (false, ⟨[some 'o', some 'k'], []⟩)
    ∧ (expect ⟨[none, some 'x', none, some 'o'] ++ some 'k' :: [some '\r'], []⟩
        "ok".toList 12 true).1 = true
    ∧ expectLoop "ok".toList ⟨[none, some 'x', none, some 'o'] ++ some 'k' :: [some '\r'], []⟩
        12 0 = (⟨[some '\r'], []⟩, 12 - 5 * ((polls [none, some 'x', none, some 'o'] : Nat) : Int),
                "ok".toList.length) :=
  expect_budget "ok".toList 12 (by decide) [] true
    [some 'o', none, some 'x', none, some 'k'] [some 'o', some 'k'] (by decide) (by decide)
    [none, some 'x', none, some 'o'] [some '\r'] 'k' (by decide) (by decide) (by decide)

/-! ## Soundness of the matcher -/

/-- The first loop of `expect` reads off a run of reads from the front of the
port, and the bytes read so far always end with the matched part of the
pattern. -/
theorem expectLoop_consumed (str : Str) (tx : Str) :
    ∀ (n : Nat) (rx : List (Option Char)) (timeout : Int) (matched : Nat) (acc before : Str),
      rx.length + timeout.toNat ≤ n → matched ≤ str.length → acc = before ++ str.take matched →
      ∃ (consumed : List (Option Char)) (before1 : Str),
        rx = consumed ++ (expectLoop str ⟨rx, tx⟩ timeout matched).1.rx
        ∧ acc ++ bytesOf consumed
            = before1 ++ str.take (expectLoop str ⟨rx, tx⟩ timeout matched).2.2
        ∧ (expectLoop str ⟨rx, tx⟩ timeout matched).2.2 ≤ str.length := by
  intro n
  induction n with
  | zero =>
    intro rx timeout matched acc before h hm hacc
    rw [expectLoop_done _ _ _ _ (by omega)]
    exact ⟨[], before, by simp, by simpa [bytesOf_nil] using hacc, hm⟩
  | succ k ih =>
    intro rx timeout matched acc before h hm hacc
    by_cases hc : timeout > 0 ∧ matched < str.length
    · cases rx with
      | nil =>
        rw [expectLoop_nil _ _ _ _ hc.1 hc.2]
        exact ih [] (timeout - 5) matched acc before (by simp at h ⊢; omega) hm hacc
      | cons e r =>
        cases e with
        | none =>
          rw [expectLoop_none _ _ _ _ _ hc.1 hc.2]
          obtain ⟨consumed, before1, h1, h2, h3⟩ :=
            ih r (timeout - 5) matched acc before (by simp at h ⊢; omega) hm hacc
          exact ⟨none :: consumed, before1, by rw [List.cons_append, ← h1],
            by rw [bytesOf_none]; exact h2, h3⟩
        | some b =>
          rw [expectLoop_some _ _ _ _ _ _ hc.1 hc.2]
          by_cases hb : str[matched] = b
          · rw [if_pos hb]
            have hacc1 : acc ++ [b] = before ++ str.take (matched + 1) := by
              rw [List.take_succ, List.getElem?_eq_getElem hc.2, hacc, hb]
              simp
            obtain ⟨consumed, before1, h1, h2, h3⟩ :=
              ih r timeout (matched + 1) (acc ++ [b]) before (by simp at h ⊢; omega) (by omega)
                hacc1
            exact ⟨some b :: consumed, before1, by rw [List.cons_append, ← h1],
              by rw [bytesOf_some, ← h2]; simp, h3⟩
          · rw [if_neg hb]
            obtain ⟨consumed, before1, h1, h2, h3⟩ :=
              ih r timeout 0 (acc ++ [b]) (acc ++ [b]) (by simp at h ⊢; omega) (by omega)
                (by simp)
            exact ⟨some b :: consumed, before1, by rw [List.cons_append, ← h1],
              by rw [bytesOf_some, ← h2]; simp, h3⟩
    · rw [expectLoop_done _ _ _ _ hc]
      exact ⟨[], before, by simp, by simpa [bytesOf_nil] using hacc, hm⟩

/-- The second loop of `expect` reads off a run of reads from the front of the
port. -/
theorem discardLine_consumed (tx : Str) :
    ∀ (n : Nat) (rx : List (Option Char)) (timeout : Int) (buf0 : Char),
      rx.length + timeout.toNat ≤ n →
      ∃ consumed : List (Option Char), rx = consumed ++ (discardLine ⟨rx, tx⟩ timeout buf0).1.rx := by
  intro n
  induction n with
  | zero =>
    intro rx timeout buf0 h
    rw [discardLine_done _ _ _ (by omega)]
    exact ⟨[], by simp⟩
  | succ k ih =>
    intro rx timeout buf0 h
    by_cases hc : timeout > 0 ∧ buf0 ≠ '\n'
    · cases rx with
      | nil =>
        rw [discardLine_nil _ _ _ hc.1 hc.2]
        exact ih [] (timeout - 5) buf0 (by simp at h ⊢; omega)
      | cons e r =>
        cases e with
        | none =>
          rw [discardLine_none _ _ _ _ hc.1 hc.2]
          obtain ⟨consumed, h1⟩ := ih r (timeout - 5) buf0 (by simp at h ⊢; omega)
          exact ⟨none :: consumed, by rw [List.cons_append, ← h1]⟩
        | some b =>
          rw [discardLine_some _ _ _ _ _ hc.1 hc.2]
          obtain ⟨consumed, h1⟩ := ih r timeout b (by simp at h ⊢; omega)
          exact ⟨some b :: consumed, by rw [List.cons_append, ← h1]⟩
    · rw [discardLine_done _ _ _ hc]
      exact ⟨[], by simp⟩

/-- C15: when `expect` returns success, the reads used up by the matching loop
are a run from the front of the port whose bytes end with the pattern, so the
last bytes read by the matching loop are exactly the pattern; the reads used
up by the whole call, the discarded rest of the line included, deliver bytes
that hold the pattern as a contiguous run. -/
theorem expect_sound (str : Str) (rx : List (Option Char)) (tx : Str) (timeout : Int)
    (readline : Bool) (h : (expect ⟨rx, tx⟩ str timeout readline).1 = true) :
    (∃ (consumed : List (Option Char)) (before : Str),
        rx = consumed ++ (expectLoop str ⟨rx, tx⟩ timeout 0).1.rx
        ∧ bytesOf consumed = before ++ str)
    ∧ (∃ (consumed : List (Option Char)) (before after : Str),
        rx = consumed ++ (expect ⟨rx, tx⟩ str timeout readline).2.rx
        ∧ bytesOf consumed = before ++ str ++ after) := by
  obtain ⟨c1, before, h1, h2, h3⟩ :=
    expectLoop_consumed str tx _ rx timeout 0 [] [] (le_refl _) (by omega) (by simp)
  have hm : (expectLoop str ⟨rx, tx⟩ timeout 0).2.2 ≥ str.length := by
    by_contra h0
    unfold expect at h
    simp only [h0, if_false] at h
    cases h
  have h4 : (expectLoop str ⟨rx, tx⟩ timeout 0).2.2 = str.length := by omega
  rw [h4, List.take_length, List.nil_append] at h2
  refine ⟨⟨c1, before, h1, h2⟩, ?_⟩
  obtain ⟨rx1, t1, m1, h5⟩ := expectLoop_tx_free str _ rx timeout 0 (le_refl _)
  have h6 := h5 tx
  rw [h6] at h1 hm
  unfold expect
  rw [h6]
  simp only at h1 hm
  simp only [hm, if_true]
  cases readline with
  | false =>
    exact ⟨c1, before, [], by simpa using h1, by simpa using h2⟩
  | true =>
    obtain ⟨c2, h7⟩ := discardLine_consumed tx _ rx1 t1 (Char.ofNat 0) (le_refl _)
    refine ⟨c1 ++ c2, before, bytesOf c2, ?_, ?_⟩
    · simp only [if_true]
      rw [List.append_assoc, ← h7]
      exact h1
    · rw [bytesOf_append, h2]

/-- Witness of C15: the token `ok` after an echo, with the rest of the line. -/
theorem expect_sound_witness :
    (∃ (consumed : List (Option Char)) (before : Str),
        deliver "tx\r\n".toList ++ (deliver "ok\r\n".toList ++ [])
          = consumed ++ (expectLoop "ok".toList
              ⟨deliver "tx\r\n".toList ++ (deliver "ok\r\n".toList ++ []), []⟩ 1000 0).1.rx
        ∧ bytesOf consumed = before ++ "ok".toList)
    ∧ (∃ (consumed : List (Option Char)) (before after : Str),
        deliver "tx\r\n".toList ++ (deliver "ok\r\n".toList ++ [])
          = consumed ++ (expect ⟨deliver "tx\r\n".toList ++ (deliver "ok\r\n".toList ++ []), []⟩
              "ok".toList 1000 true).2.rx
        ∧ bytesOf consumed = before ++ "ok".toList ++ after) :=
  expect_sound "ok".toList (deliver "tx\r\n".toList ++ (deliver "ok\r\n".toList ++ [])) [] 1000
    true
    (by
      have h := expect_line "ok".toList (by decide) "tx\r\n".toList "\r".toList [] [] 1000
        (by decide) (by decide) (by decide)
      have h1 : deliver ("tx\r\n".toList ++ "ok".toList ++ "\r".toList ++ ['\n']) ++ []
          = deliver "tx\r\n".toList ++ (deliver "ok\r\n".toList ++ []) := by decide
      rw [h1] at h
      rw [h])

/-! ## The number of reads -/

theorem expectLoopReads_done (str : Str) (rn : Port) (timeout : Int) (matched : Nat)
    (h : ¬ (timeout > 0 ∧ matched < str.length)) :
    expectLoopReads str rn timeout matched = 0 := by
  rw [expectLoopReads]
  simp only [h, dite_false]

theorem expectLoopReads_nil (str : Str) (tx : Str) (timeout : Int) (matched : Nat)
    (ht : timeout > 0) (hm : matched < str.length) :
    expectLoopReads str ⟨[], tx⟩ timeout matched
      = expectLoopReads str ⟨[], tx⟩ (timeout - 5) matched + 1 := by
  rw [expectLoopReads]
  simp [Port.Read, ht, hm]

theorem expectLoopReads_none (str : Str) (rx : List (Option Char)) (tx : Str) (timeout : Int)
    (matched : Nat) (ht : timeout > 0) (hm : matched < str.length) :
    expectLoopReads str ⟨none :: rx, tx⟩ timeout matched
      = expectLoopReads str ⟨rx, tx⟩ (timeout - 5) matched + 1 := by
  rw [expectLoopReads]
  simp [Port.Read, ht, hm]

theorem expectLoopReads_some (str : Str) (b : Char) (rx : List (Option Char)) (tx : Str)
    (timeout : Int) (matched : Nat) (ht : timeout > 0) (hm : matched < str.length) :
    expectLoopReads str ⟨some b :: rx, tx⟩ timeout matched
      = if str[matched] = b then expectLoopReads str ⟨rx, tx⟩ timeout (matched + 1) + 1
        else expectLoopReads str ⟨rx, tx⟩ timeout 0 + 1 := by
  rw [expectLoopReads]
  simp [Port.Read, ht, hm]

theorem discardLineReads_done (rn : Port) (timeout : Int) (buf0 : Char)
    (h : ¬ (timeout > 0 ∧ buf0 ≠ '\n')) :
    discardLineReads rn timeout buf0 = 0 := by
  rw [discardLineReads]
  simp only [h, dite_false]

theorem discardLineReads_nil (tx : Str) (timeout : Int) (buf0 : Char)
    (ht : timeout > 0) (hb : buf0 ≠ '\n') :
    discardLineReads ⟨[], tx⟩ timeout buf0 = discardLineReads ⟨[], tx⟩ (timeout - 5) buf0 + 1 := by
  rw [discardLineReads]
  simp [Port.Read, ht, hb]

theorem discardLineReads_none (rx : List (Option Char)) (tx : Str) (timeout : Int) (buf0 : Char)
    (ht : timeout > 0) (hb : buf0 ≠ '\n') :
    discardLineReads ⟨none :: rx, tx⟩ timeout buf0
      = discardLineReads ⟨rx, tx⟩ (timeout - 5) buf0 + 1 := by
  rw [discardLineReads]
  simp [Port.Read, ht, hb]

theorem discardLineReads_some (b : Char) (rx : List (Option Char)) (tx : Str) (timeout : Int)
    (buf0 : Char) (ht : timeout > 0) (hb : buf0 ≠ '\n') :
    discardLineReads ⟨some b :: rx, tx⟩ timeout buf0 = discardLineReads ⟨rx, tx⟩ timeout b + 1 := by
  rw [discardLineReads]
  simp [Port.Read, ht, hb]

theorem lineLoopReads_done (quantum : Int) (hq : 0 < quantum) (rn : Port) (timeout : Int)
    (matched : Nat) (h : ¬ (timeout > 0 ∧ matched < eol.length)) :
    lineLoopReads quantum hq rn timeout matched = 0 := by
  rw [lineLoopReads]
  simp only [h, dite_false]

theorem lineLoopReads_nil (quantum : Int) (hq : 0 < quantum) (tx : Str) (timeout : Int)
    (matched : Nat) (ht : timeout > 0) (hm : matched < eol.length) :
    lineLoopReads quantum hq ⟨[], tx⟩ timeout matched
      = lineLoopReads quantum hq ⟨[], tx⟩ (timeout - quantum) matched + 1 := by
  rw [lineLoopReads]
  simp [Port.Read, ht, hm]

theorem lineLoopReads_none (quantum : Int) (hq : 0 < quantum) (rx : List (Option Char))
    (tx : Str) (timeout : Int) (matched : Nat) (ht : timeout > 0) (hm : matched < eol.length) :
    lineLoopReads quantum hq ⟨none :: rx, tx⟩ timeout matched
      = lineLoopReads quantum hq ⟨rx, tx⟩ (timeout - quantum) matched + 1 := by
  rw [lineLoopReads]
  simp [Port.Read, ht, hm]

theorem lineLoopReads_some (quantum : Int) (hq : 0 < quantum) (b : Char)
    (rx : List (Option Char)) (tx : Str) (timeout : Int) (matched : Nat) (ht : timeout > 0)
    (hm : matched < eol.length) :
    lineLoopReads quantum hq ⟨some b :: rx, tx⟩ timeout matched
      = if eol[matched] = b then lineLoopReads quantum hq ⟨rx, tx⟩ timeout (matched + 1) + 1
        else lineLoopReads quantum hq ⟨rx, tx⟩ timeout 0 + 1 := by
  rw [lineLoopReads]
  simp [Port.Read, ht, hm]

/-- Every read of the first loop of `expect` either uses up a delivered byte or
takes five from the budget. -/
theorem expectLoopReads_account (str : Str) (tx : Str) :
    ∀ (n : Nat) (rx : List (Option Char)) (timeout : Int) (matched : Nat),
      rx.length + timeout.toNat ≤ n →
      expectLoopReads str ⟨rx, tx⟩ timeout matched
          + ((bytesOf (expectLoop str ⟨rx, tx⟩ timeout matched).1.rx).length
              + ((expectLoop str ⟨rx, tx⟩ timeout matched).2.1.toNat + 4) / 5)
        ≤ (bytesOf rx).length + (timeout.toNat + 4) / 5 := by
  intro n
  induction n with
  | zero =>
    intro rx timeout matched h
    rw [expectLoop_done _ _ _ _ (by omega), expectLoopReads_done _ _ _ _ (by omega)]
    simp
  | succ k ih =>
    intro rx timeout matched h
    by_cases hc : timeout > 0 ∧ matched < str.length
    · cases rx with
      | nil =>
        rw [expectLoop_nil _ _ _ _ hc.1 hc.2, expectLoopReads_nil _ _ _ _ hc.1 hc.2]
        have h1 := ih [] (timeout - 5) matched (by simp at h ⊢; omega)
        have h2 := hc.1
        omega
      | cons e r =>
        cases e with
        | none =>
          rw [expectLoop_none _ _ _ _ _ hc.1 hc.2, expectLoopReads_none _ _ _ _ _ hc.1 hc.2,
            bytesOf_none]
          have h1 := ih r (timeout - 5) matched (by simp at h ⊢; omega)
          have h2 := hc.1
          omega
        | some b =>
          rw [expectLoop_some _ _ _ _ _ _ hc.1 hc.2, expectLoopReads_some _ _ _ _ _ _ hc.1 hc.2,
            bytesOf_some, List.length_cons]
          by_cases hb : str[matched] = b
          · rw [if_pos hb, if_pos hb]
            have h1 := ih r timeout (matched + 1) (by simp at h ⊢; omega)
            omega
          · rw [if_neg hb, if_neg hb]
            have h1 := ih r timeout 0 (by simp at h ⊢; omega)
            omega
    · rw [expectLoop_done _ _ _ _ hc, expectLoopReads_done _ _ _ _ hc]
      simp

/-- Every read of the second loop of `expect` either uses up a delivered byte
or takes five from the budget. -/
theorem discardLineReads_account (tx : Str) :
    ∀ (n : Nat) (rx : List (Option Char)) (timeout : Int) (buf0 : Char),
      rx.length + timeout.toNat ≤ n →
      discardLineReads ⟨rx, tx⟩ timeout buf0 ≤ (bytesOf rx).length + (timeout.toNat + 4) / 5 := by
  intro n
  induction n with
  | zero =>
    intro rx timeout buf0 h
    rw [discardLineReads_done _ _ _ (by omega)]
    omega
  | succ k ih =>
    intro rx timeout buf0 h
    by_cases hc : timeout > 0 ∧ buf0 ≠ '\n'
    · cases rx with
      | nil =>
        rw [discardLineReads_nil _ _ _ hc.1 hc.2]
        have h1 := ih [] (timeout - 5) buf0 (by simp at h ⊢; omega)
        have h2 := hc.1
        omega
      | cons e r =>
        cases e with
        | none =>
          rw [discardLineReads_none _ _ _ _ hc.1 hc.2, bytesOf_none]
          have h1 := ih r (timeout - 5) buf0 (by simp at h ⊢; omega)
          have h2 := hc.1
          omega
        | some b =>
          rw [discardLineReads_some _ _ _ _ _ hc.1 hc.2, bytesOf_some, List.length_cons]
          have h1 := ih r timeout b (by simp at h ⊢; omega)
          omega
    · rw [discardLineReads_done _ _ _ hc]
      omega

/-- Every read of the accumulation loop either uses up a delivered byte or
takes the quantum from the budget; `P` counts the empty reads a budget allows. -/
theorem lineLoopReads_account (quantum : Int) (hq : 0 < quantum) (tx : Str) (P : Int → Nat)
    (hP : ∀ t : Int, t > 0 → P (t - quantum) + 1 ≤ P t) :
    ∀ (n : Nat) (rx : List (Option Char)) (timeout : Int) (matched : Nat),
      rx.length + timeout.toNat ≤ n →
      lineLoopReads quantum hq ⟨rx, tx⟩ timeout matched ≤ (bytesOf rx).length + P timeout := by
  intro n
  induction n with
  | zero =>
    intro rx timeout matched h
    rw [lineLoopReads_done _ _ _ _ _ (by omega)]
    omega
  | succ k ih =>
    intro rx timeout matched h
    by_cases hc : timeout > 0 ∧ matched < eol.length
    · cases rx with
      | nil =>
        rw [lineLoopReads_nil _ _ _ _ _ hc.1 hc.2]
        have h1 := ih [] (timeout - quantum) matched (by simp at h ⊢; omega)
        have h2 := hP timeout hc.1
        omega
      | cons e r =>
        cases e with
        | none =>
          rw [lineLoopReads_none _ _ _ _ _ _ hc.1 hc.2, bytesOf_none]
          have h1 := ih r (timeout - quantum) matched (by simp at h ⊢; omega)
          have h2 := hP timeout hc.1
          omega
        | some b =>
          rw [lineLoopReads_some _ _ _ _ _ _ _ hc.1 hc.2, bytesOf_some, List.length_cons]
          by_cases hb : eol[matched] = b
          · rw [if_pos hb]
            have h1 := ih r timeout (matched + 1) (by simp at h ⊢; omega)
            omega
          · rw [if_neg hb]
            have h1 := ih r timeout 0 (by simp at h ⊢; omega)
            omega
    · rw [lineLoopReads_done _ _ _ _ _ hc]
      omega

/-- Bytes that differ from the first byte of the pattern cost one read each. -/
theorem expectLoopReads_skip (str : Str) (hs : 0 < str.length) (tx : Str) (timeout : Int)
    (ht : timeout > 0) (rx : List (Option Char)) :
    ∀ pre : Str, str[0] ∉ pre →
      expectLoopReads str ⟨deliver pre ++ rx, tx⟩ timeout 0
        = expectLoopReads str ⟨rx, tx⟩ timeout 0 + pre.length := by
  intro pre
  induction pre with
  | nil => intro _; rfl
  | cons c r ih =>
    intro h
    simp only [List.mem_cons, not_or] at h
    have h1 : deliver (c :: r) ++ rx = some c :: (deliver r ++ rx) := rfl
    rw [h1, expectLoopReads_some str c _ tx timeout 0 ht hs, if_neg h.1, ih h.2,
      List.length_cons]
    omega

/-- C17, as amended: `expect`, `ReadLine` and `ReadResult` make at most as many
reads as the port delivers bytes, plus the number of empty reads that the
budget allows, `ceil(timeout / 5)` for `expect` and `ReadResult` and
`ceil(timeout / 10)` for `ReadLine`: the budget bounds the empty reads only. -/
theorem reads_bounded (str : Str) (rx : List (Option Char)) (tx : Str) (timeout : Int)
    (readline : Bool) :
    expectReads ⟨rx, tx⟩ str timeout readline ≤ (bytesOf rx).length + (timeout.toNat + 4) / 5
    ∧ ReadLineReads ⟨rx, tx⟩ timeout ≤ (bytesOf rx).length + (timeout.toNat + 9) / 10
    ∧ ReadResultReads ⟨rx, tx⟩ timeout ≤ (bytesOf rx).length + (timeout.toNat + 4) / 5 := by
  refine ⟨?_, ?_, ?_⟩
  · have h1 := expectLoopReads_account str tx _ rx timeout 0 (le_refl _)
    obtain ⟨rx1, t1, m1, h2⟩ := expectLoop_tx_free str _ rx timeout 0 (le_refl _)
    have h3 := discardLineReads_account tx _ rx1 t1 (Char.ofNat 0) (le_refl _)
    unfold expectReads
    rw [h2 tx] at h1 ⊢
    simp only at h1 ⊢
    split <;> omega
  · exact lineLoopReads_account 10 (by decide) tx (fun t => (t.toNat + 9) / 10)
      (fun t ht => by simp only; omega) _ rx timeout 0 (le_refl _)
  · exact lineLoopReads_account 5 (by decide) tx (fun t => (t.toNat + 4) / 5)
      (fun t ht => by simp only; omega) _ rx timeout 0 (le_refl _)

/-- C17, counterexample: no bound in terms of the budget holds for the reads
of `expect`: with the budget 5, a port that delivers one more byte `x` than
the bound allows reads is read to its end. -/
theorem reads_unbounded_counterexample :
    ¬ ∃ bound : Int → Nat, ∀ (rx : List (Option Char)) (timeout : Int),
        expectReads ⟨rx, []⟩ "ok".toList timeout true ≤ bound timeout := by
  rintro ⟨bound, h⟩
  have h1 := h (deliver (List.replicate (bound 5 + 1) 'x') ++ []) 5
  have h2 := expectLoopReads_skip "ok".toList (by decide) [] 5 (by decide) []
    (List.replicate (bound 5 + 1) 'x')
    (by
      intro h0
      have h3 := List.eq_of_mem_replicate h0
      exact absurd h3 (by decide))
  have h4 : expectLoopReads "ok".toList ⟨deliver (List.replicate (bound 5 + 1) 'x') ++ [], []⟩ 5 0
      ≤ bound 5 := le_trans (Nat.le_add_right _ _) h1
  rw [h2, List.length_replicate] at h4
  omega

/-! ## The recovery policy of the logger -/

/-- After the `ok` of the module, `Transmit` classifies the result line and
leaves the rest of the input unread; it has written the transmit command. -/
theorem Transmit_line_port (port : Int) (confirmed : Bool) (data : List UInt8) (line : Str)
    (hcr : '\r' ∉ line) (rx : List (Option Char)) (tx : Str) :
    Transmit ⟨deliver ("ok\r\n".toList ++ line ++ "\r\n".toList) ++ rx, tx⟩ port confirmed data
      = (classify line,
         ⟨rx, tx ++ "mac tx ".toList ++ (if confirmed then "cnf".toList else "uncnf".toList)
            ++ (" ".toList ++ Itoa port ++ " ".toList) ++ hexPayload data ++ "\r\n".toList⟩) := by
  have h1 : deliver ("ok\r\n".toList ++ line ++ "\r\n".toList) ++ rx
      = deliver "ok\r\n".toList ++ (deliver (line ++ "\r\n".toList) ++ rx) := by
    simp only [deliver_append, List.append_assoc]
  cases confirmed <;>
    simp only [Transmit, Send_mk, sendHex_mk, Bool.false_eq_true, if_false, if_true, h1,
      expect_ok, ReadResult_line line hcr _ _ 600000 (by decide)]

/-- On a port that delivers nothing `JoinAbp` fails after the reset command. -/
theorem JoinAbp_silent (tx : Str) (devAdr networkSessionkey appSessionkey : Str)
    (adaptiveRate : Bool) (dataRate : Int) :
    JoinAbp ⟨[], tx⟩ devAdr networkSessionkey appSessionkey adaptiveRate dataRate
      = (false, ⟨[], tx ++ "sys reset\r\n".toList⟩) := by
  have h : SYS_RESET_STR ++ "\r\n".toList = "sys reset\r\n".toList := by decide
  have h1 := expect_silent "RN2483".toList (by decide) (tx ++ "sys reset\r\n".toList) 10000 true
  simp only [JoinAbp, Reset, Send_mk, h, h1, if_true, if_false, Bool.false_eq_true, false_and]

/-- The join of the logger on a script that acknowledges every step. -/
theorem JoinAbp_logger (nodeId : Str) (rx : List (Option Char)) (tx : Str) :
    JoinAbp
      ⟨deliver ("RN2483 1.0.1\r".toList ++ "\n".toList)
        ++ (deliver "ok\r\n".toList ++ (deliver "ok\r\n".toList ++ (deliver "ok\r\n".toList
        ++ (deliver "ok\r\n".toList ++ (deliver "ok\r\n".toList
        ++ (deliver "ok\r\n".toList ++ (deliver "accepted\r\n".toList ++ rx))))))), tx⟩
      nodeId loggerKey loggerKey false 5
    = (true,
       ⟨rx, tx ++ ("sys reset\r\n".toList ++ ("mac set devaddr ".toList ++ (nodeId
          ++ (("\r\nmac set appskey 2B7E151628AED2A6ABF7158809CF4F3C\r\n"
            ++ "mac set nwkskey 2B7E151628AED2A6ABF7158809CF4F3C\r\n"
            ++ "mac set adr off\r\nmac set dr 5\r\nmac join abp\r\n").toList))))⟩) := by
  have hb := expect_banner [] " 1.0.1\r".toList (by decide) (by decide)
  have hb1 : ([] : Str) ++ "RN2483".toList ++ " 1.0.1\r".toList ++ "\n".toList
      = "RN2483 1.0.1\r".toList ++ "\n".toList := by decide
  rw [hb1] at hb
  have hd : (5 : Int) ≥ 0 := by decide
  simp only [JoinAbp, Reset, Send_mk, hb, expect_ok, expect_accepted, hd, if_true, if_false,
    and_true, and_false, true_and, Bool.false_eq_true]
  simp [MAC_SET_STR, MAC_DEVADDR_STR, MAC_APP_SESSION_KEY_STR, MAC_NETWORK_SESSION_KEY_STR,
    MAC_ADR_STR, MAC_DR_STR, MAC_JOIN_STR, MAC_ABP_STR, SYS_RESET_STR, loggerKey, Itoa]
  decide

/-- The transmission of the logger's two bytes `Hi` on a port that answers
`ok` and a result line. -/
theorem Transmit_logger (line : Str) (hcr : '\r' ∉ line) (rx : List (Option Char)) (tx : Str) :
    Transmit ⟨deliver ("ok\r\n".toList ++ line ++ "\r\n".toList) ++ rx, tx⟩ 1 false [72, 105]
      = (classify line, ⟨rx, tx ++ "mac tx uncnf 1 4869\r\n".toList⟩) := by
  have h : "mac tx ".toList ++ ("uncnf".toList ++ (" ".toList ++ (Itoa 1 ++ (" ".toList
      ++ (hexPayload [72, 105] ++ "\r\n".toList))))) = "mac tx uncnf 1 4869\r\n".toList := by
    decide
  rw [Transmit_line_port 1 false [72, 105] line hcr rx tx]
  simp only [Bool.false_eq_true, if_false, List.append_assoc, h]

theorem classify_mac_err :
    classify "mac_err".toList
      = Except.ok { port := 0, data := [], err := some (NewError "mac_err".toList XMIT_RESET) } :=
  rfl

theorem classify_no_free_ch :
    classify "no_free_ch".toList
      = Except.ok { port := 0, data := [],
                    err := some (NewError "no_free_ch".toList XMIT_RETRY) } :=
  rfl

theorem classify_busy :
    classify "busy".toList
      = Except.ok { port := 0, data := [], err := some (NewError "busy".toList XMIT_FAIL) } :=
  rfl

theorem classify_mac_tx_ok :
    classify "mac_tx_ok".toList = Except.ok { port := 0, data := [], err := none } :=
  rfl

/-- A pass of the loop after a transmission without error. -/
theorem mainCycle_of_nil (attempts : Nat) (nodeId : Str) (rn rn1 : Port)
    (xmitdata : List UInt8) (res : XmitResult)
    (h : Transmit rn 1 false xmitdata = (Except.ok res, rn1)) (h1 : res.err = none) :
    mainCycle attempts nodeId rn xmitdata = Except.ok (true, rn1) := by
  unfold mainCycle
  rw [h]
  simp only [h1]

/-- A pass of the loop after an error that the caller sees as retryable. -/
theorem mainCycle_of_retryable (attempts : Nat) (nodeId : Str) (rn rn1 : Port)
    (xmitdata : List UInt8) (res : XmitResult) (e : GoError)
    (h : Transmit rn 1 false xmitdata = (Except.ok res, rn1)) (h1 : res.err = some e)
    (h2 : reportsRetryAble e = true) :
    mainCycle attempts nodeId rn xmitdata = Except.ok (initLora nodeId attempts rn1) := by
  unfold mainCycle
  rw [h]
  simp only [h1, h2, if_true]

/-- A pass of the loop after an error that the caller does not see as
retryable. -/
theorem mainCycle_of_other (attempts : Nat) (nodeId : Str) (rn rn1 : Port)
    (xmitdata : List UInt8) (res : XmitResult) (e : GoError)
    (h : Transmit rn 1 false xmitdata = (Except.ok res, rn1)) (h1 : res.err = some e)
    (h2 : reportsRetryAble e = false) :
    mainCycle attempts nodeId rn xmitdata = Except.ok (true, rn1) := by
  unfold mainCycle
  rw [h]
  simp only [h1, h2, Bool.false_eq_true, if_false]

theorem initLora_joined (nodeId : Str) (attempts : Nat) (rn rn1 : Port)
    (h : JoinAbp rn nodeId loggerKey loggerKey false 5 = (true, rn1)) :
    initLora nodeId (attempts + 1) rn = (true, rn1) := by
  unfold initLora
  rw [h]
  simp only [if_true]

theorem initLora_silent (nodeId : Str) :
    ∀ (attempts : Nat) (tx : Str),
      initLora nodeId attempts ⟨[], tx⟩
        = (false, ⟨[], tx ++ (List.replicate attempts "sys reset\r\n".toList).flatten⟩) := by
  intro attempts
  induction attempts with
  | zero => intro tx; simp [initLora]
  | succ k ih =>
    intro tx
    unfold initLora
    rw [JoinAbp_silent]
    simp only [Bool.false_eq_true, if_false, ih, List.replicate_succ, List.flatten_cons,
      List.append_assoc]

/-- C12, the code at the failing input: when `Transmit` returns an error for
which `ResetRequired` or `RejoinRequired` holds, the pass of the loop ends
right after `Transmit`, with the port as `Transmit` left it: `initLora` is not
called and nothing is written.  On the answers `ok`, `mac_err` and then `ok`,
`mac_tx_ok` the first transmission returns the code `XMIT_RESET`, and the next
pass transmits again: the two transmit commands are all that is written. -/
theorem mainCycle_reset_required :
    (∀ (attempts : Nat) (nodeId : Str) (rn : Port) (xmitdata : List UInt8) (res : XmitResult)
        (e : Rn2483Error),
        (Transmit rn 1 false xmitdata).1 = Except.ok res → res.err = some (GoError.rn2483 e) →
        (e.ResetRequired = true ∨ e.RejoinRequired = true) →
        mainCycle attempts nodeId rn xmitdata
          = Except.ok (true, (Transmit rn 1 false xmitdata).2))
    ∧ (Transmit
        ⟨deliver ("ok\r\n".toList ++ "mac_err".toList ++ "\r\n".toList)
          ++ deliver ("ok\r\n".toList ++ "mac_tx_ok".toList ++ "\r\n".toList), []⟩
        1 false [72, 105]).1
        = Except.ok { port := 0, data := [],
                      err := some (NewError "mac_err".toList XMIT_RESET) }
    ∧ reportsResetRequired (NewError "mac_err".toList XMIT_RESET) = true
    ∧ mainCycle 3 "020129FF".toList
        ⟨deliver ("ok\r\n".toList ++ "mac_err".toList ++ "\r\n".toList)
          ++ deliver ("ok\r\n".toList ++ "mac_tx_ok".toList ++ "\r\n".toList), []⟩ [72, 105]
        = Except.ok (true,
            ⟨deliver ("ok\r\n".toList ++ "mac_tx_ok".toList ++ "\r\n".toList),
             [] ++ "mac tx uncnf 1 4869\r\n".toList⟩)
    ∧ mainCycle 3 "020129FF".toList
        ⟨deliver ("ok\r\n".toList ++ "mac_tx_ok".toList ++ "\r\n".toList) ++ [],
         [] ++ "mac tx uncnf 1 4869\r\n".toList⟩ [72, 105]
        = Except.ok (true,
            ⟨[], [] ++ "mac tx uncnf 1 4869\r\n".toList ++ "mac tx uncnf 1 4869\r\n".toList⟩) := by
  refine ⟨?_, ?_, by decide, ?_, ?_⟩
  · intro attempts nodeId rn xmitdata res e h1 h2 h3
    have h4 : reportsRetryAble (GoError.rn2483 e) = false := by
      simp only [Rn2483Error.ResetRequired, Rn2483Error.RejoinRequired, beq_iff_eq] at h3
      simp only [reportsRetryAble, GoError.asRn2483, Rn2483Error.RetryAble]
      rcases h3 with h3 | h3 <;> rw [h3] <;> decide
    exact mainCycle_of_other attempts nodeId rn _ xmitdata res _
      (Prod.ext h1 rfl) h2 h4
  · rw [Transmit_logger "mac_err".toList (by decide), classify_mac_err]
  · exact mainCycle_of_other 3 _ _ _ _ _ (NewError "mac_err".toList XMIT_RESET)
      (by rw [Transmit_logger "mac_err".toList (by decide), classify_mac_err]) rfl (by decide)
  · exact mainCycle_of_nil 3 _ _ _ _ _
      (by rw [Transmit_logger "mac_tx_ok".toList (by decide), classify_mac_tx_ok]) rfl

/-- C13, the code at the failing input: when `Transmit` returns an error for
which `RetryAble` holds, the pass of the loop goes on with `initLora`.  On the
answers `ok`, `no_free_ch` and then the acknowledgments of a join, the pass
writes the reset command, the set commands and the join command after the
transmit command; when nothing more is answered, every attempt of `initLora`
writes the reset command again.  For an error of the code `XMIT_FAIL`, as on
the answer `busy`, and for every other error that the caller does not see as
retryable, the pass ends right after `Transmit`. -/
theorem mainCycle_retry :
    (∀ (attempts : Nat) (nodeId : Str) (rn : Port) (xmitdata : List UInt8) (res : XmitResult)
        (e : Rn2483Error),
        (Transmit rn 1 false xmitdata).1 = Except.ok res → res.err = some (GoError.rn2483 e) →
        e.RetryAble = true →
        mainCycle attempts nodeId rn xmitdata
          = Except.ok (initLora nodeId attempts (Transmit rn 1 false xmitdata).2))
    ∧ (Transmit ⟨deliver ("ok\r\n".toList ++ "no_free_ch".toList ++ "\r\n".toList) ++ [], []⟩
        1 false [72, 105]).1
        = Except.ok { port := 0, data := [],
                      err := some (NewError "no_free_ch".toList XMIT_RETRY) }
    ∧ mainCycle 3 "020129FF".toList
        ⟨deliver ("ok\r\n".toList ++ "no_free_ch".toList ++ "\r\n".toList)
          ++ (deliver ("RN2483 1.0.1\r".toList ++ "\n".toList)
          ++ (deliver "ok\r\n".toList ++ (deliver "ok\r\n".toList ++ (deliver "ok\r\n".toList
          ++ (deliver "ok\r\n".toList ++ (deliver "ok\r\n".toList
          ++ (deliver "ok\r\n".toList ++ (deliver "accepted\r\n".toList ++ [])))))))), []⟩
        [72, 105]
        = Except.ok (true, ⟨[],
            [] ++ "mac tx uncnf 1 4869\r\n".toList
              ++ ("sys reset\r\n".toList ++ ("mac set devaddr ".toList ++ ("020129FF".toList
              ++ (("\r\nmac set appskey 2B7E151628AED2A6ABF7158809CF4F3C\r\n"
                ++ "mac set nwkskey 2B7E151628AED2A6ABF7158809CF4F3C\r\n"
                ++ "mac set adr off\r\nmac set dr 5\r\nmac join abp\r\n").toList))))⟩)
    ∧ mainCycle 2 "020129FF".toList
        ⟨deliver ("ok\r\n".toList ++ "no_free_ch".toList ++ "\r\n".toList) ++ [], []⟩ [72, 105]
        = Except.ok (false, ⟨[],
            [] ++ "mac tx uncnf 1 4869\r\n".toList
              ++ (List.replicate 2 "sys reset\r\n".toList).flatten⟩)
    ∧ mainCycle 3 "020129FF".toList
        ⟨deliver ("ok\r\n".toList ++ "busy".toList ++ "\r\n".toList) ++ [], []⟩ [72, 105]
        = Except.ok (true, ⟨[], [] ++ "mac tx uncnf 1 4869\r\n".toList⟩)
    ∧ (∀ (attempts : Nat) (nodeId : Str) (rn : Port) (xmitdata : List UInt8) (res : XmitResult)
        (e : GoError),
        (Transmit rn 1 false xmitdata).1 = Except.ok res → res.err = some e →
        reportsRetryAble e = false →
        mainCycle attempts nodeId rn xmitdata
          = Except.ok (true, (Transmit rn 1 false xmitdata).2)) := by
  refine ⟨?_, ?_, ?_, ?_, ?_, ?_⟩
  rotate_right
  · intro attempts nodeId rn xmitdata res e h1 h2 h3
    exact mainCycle_of_other attempts nodeId rn _ xmitdata res e (Prod.ext h1 rfl) h2 h3
  · intro attempts nodeId rn xmitdata res e h1 h2 h3
    exact mainCycle_of_retryable attempts nodeId rn _ xmitdata res _ (Prod.ext h1 rfl) h2 h3
  · rw [Transmit_logger "no_free_ch".toList (by decide), classify_no_free_ch]
  · rw [mainCycle_of_retryable 3 _ _ _ _ _ (NewError "no_free_ch".toList XMIT_RETRY)
      (by rw [Transmit_logger "no_free_ch".toList (by decide), classify_no_free_ch]) rfl
      (by decide),
      initLora_joined _ 2 _ _ (JoinAbp_logger _ _ _)]
  · rw [mainCycle_of_retryable 2 _ _ _ _ _ (NewError "no_free_ch".toList XMIT_RETRY)
      (by rw [Transmit_logger "no_free_ch".toList (by decide), classify_no_free_ch]) rfl
      (by decide),
      initLora_silent]
  · exact mainCycle_of_other 3 _ _ _ _ _ (NewError "busy".toList XMIT_FAIL)
      (by rw [Transmit_logger "busy".toList (by decide), classify_busy]) rfl (by decide)

end Rn2483
